import Mathlib

/-!
Shallow embedding of the core block/attestation processing engine of
`beacon_node/beacon_chain/src/beacon_chain.rs` (lighthouse).

Hashes, slots and epochs are modelled as `Nat`.  External collaborators that
the spec treats as pure functions (state transition `per_slot_processing` /
`per_block_processing`, tree hashing, BLS signatures, the operation pool and
the eth1 provider) are fields of an `Env` record of abstract functions.  The
mutable components of the `BeaconChain` object (fork choice, store, canonical
head snapshot, shuffling cache, validator pubkey cache, head tracker, event
list, persistence write log) form the first-order `ChainState` record, and
every operation is embedded in state-passing style as
`ChainState -> ChainState x Except Error Outcome`.

Lock acquisitions (all lock time-outs) are modelled as succeeding; the slot
clock is modelled as an `Option Nat` field of the chain.  Unbounded `while`
loops of the source are embedded with explicit fuel; the fuel is always
sufficient under the hypothesis that `per_slot_processing` advances the slot
by one (true of the real transition function), and exhaustion returns the
model-only error `ModelFuelExhausted`.
-/

structure Checkpoint where
  epoch : Nat
  root : Nat
deriving DecidableEq

structure BeaconState where
  slot : Nat
  finalizedCheckpoint : Checkpoint
  currentJustifiedCheckpoint : Checkpoint
  fork : Nat
  numValidators : Nat
  latestBlockHeaderRoot : Nat
  blockRoots : List (Nat × Nat)
  stateRoots : List (Nat × Nat)
deriving DecidableEq

structure BeaconBlockBody where
  randaoReveal : Nat
  eth1Data : Nat
  graffiti : List Nat
  proposerSlashings : List Nat
  attesterSlashings : List Nat
  attestations : List Nat
  deposits : List Nat
  voluntaryExits : List Nat
deriving DecidableEq

structure BeaconBlock where
  slot : Nat
  parentRoot : Nat
  stateRoot : Nat
  body : BeaconBlockBody
deriving DecidableEq

structure SignedBeaconBlock where
  message : BeaconBlock
  signature : Nat
deriving DecidableEq

structure AttestationData where
  slot : Nat
  index : Nat
  beaconBlockRoot : Nat
  source : Checkpoint
  target : Checkpoint
deriving DecidableEq

structure Attestation where
  aggregationBits : List Bool
  data : AttestationData
  signature : Nat
deriving DecidableEq

/-- The canonical head snapshot (`CheckPoint` in the source). -/
structure CheckPoint where
  beaconBlock : SignedBeaconBlock
  beaconBlockRoot : Nat
  beaconState : BeaconState
  beaconStateRoot : Nat
deriving DecidableEq

inductive RelativeEpoch where
  | Previous
  | Current
  | Next
deriving DecidableEq

inductive BlockSignatureStrategy where
  | NoVerification
  | VerifyBulk
deriving DecidableEq

inductive StateSkipConfig where
  | WithStateRoots
  | WithoutStateRoots
deriving DecidableEq

inductive ReferenceLocation where
  | fork_choice
  | database
deriving DecidableEq

inductive BlockProcessingOutcome where
  | Processed (blockRoot : Nat)
  | ParentUnknown (parent : Nat) (referenceLocation : ReferenceLocation)
  | FutureSlot (presentSlot blockSlot : Nat)
  | StateRootMismatch (block localRoot : Nat)
  | GenesisBlock
  | WouldRevertFinalizedSlot (blockSlot finalizedSlot : Nat)
  | BlockIsAlreadyKnown
  | BlockSlotLimitReached
  | PerBlockProcessingError (e : Nat)
deriving DecidableEq

inductive AttestationProcessingOutcome where
  | Processed
  | EmptyAggregationBitfield
  | UnknownHeadBlock (beaconBlockRoot : Nat)
  | AttestsToFutureBlock (block attn : Nat)
  | FinalizedSlot (attn finalized : Nat)
  | FutureEpoch (attestationEpoch currentEpoch : Nat)
  | PastEpoch (attestationEpoch currentEpoch : Nat)
  | BadTargetEpoch
  | UnknownTargetRoot (root : Nat)
  | InvalidSignature
  | NoCommitteeForSlotAndIndex (slot : Nat) (index : Nat)
  | Invalid (e : Nat)
deriving DecidableEq

inductive BeaconChainError where
  | UnableToReadSlot
  | DBInconsistent (stateRoot : Nat)
  | MissingBeaconBlock (root : Nat)
  | MissingBeaconState (root : Nat)
  | RevertedFinalizedEpoch (previousEpoch newEpoch : Nat)
  | BeaconStateError (e : Nat)
  | IncorrectStateForAttestation
  | NoStateForSlot (slot : Nat)
  | StateSkipTooLarge (startSlot requestedSlot maxTaskRuntime : Nat)
  | ValidatorPubkeyCacheIncomplete (index : Nat)
  | SignatureSetError
  | ModelFuelExhausted
deriving DecidableEq

inductive BlockProductionError where
  | NoEth1ChainConnection
  | UnableToProduceAtSlot (slot : Nat)
  | UnableToGetBlockRootFromState
  | BlockProcessingError (e : Nat)
  | OpPoolError (e : Nat)
  | StateError (e : Nat)
deriving DecidableEq

/-- Result of `per_block_processing`: a `BeaconStateError` escalates to an
internal `Err`, any other error becomes the classified
`PerBlockProcessingError` outcome. -/
inductive BlockProcErr where
  | beaconStateError (e : Nat)
  | other (e : Nat)
deriving DecidableEq

inductive EventKind where
  | BeaconHeadChanged (reorg : Bool) (previousHeadRoot currentHeadRoot : Nat)
  | BeaconFinalization (epoch : Nat) (root : Nat)
deriving DecidableEq

/-- Snapshot written to the store under `BEACON_CHAIN_DB_KEY`. -/
structure PersistedBeaconChain where
  canonicalHeadBlockRoot : Nat
  genesisBlockRoot : Nat
  sszHeadTracker : List (Nat × Nat)
deriving DecidableEq

/-- An entry of the persistence write log, tagged by the well-known key it is
written under. -/
inductive StoreWrite where
  | forkChoiceWrite (dag : List (Nat × Nat × Nat))
  | headWrite (snapshot : PersistedBeaconChain)
deriving DecidableEq

/-- The abstract external collaborators, all treated as pure functions (the
spec treats SSZ, tree hashing, BLS and the state-transition function as pure;
the slot-clock reading and the eth1 attachment live in `ChainState`). -/
structure Env where
  slotsPerEpoch : Nat
  millisecondsPerSlot : Nat
  perSlotProcessing : BeaconState → Option Nat → Except Nat BeaconState
  perBlockProcessing : BeaconState → SignedBeaconBlock → Option Nat →
    BlockSignatureStrategy → Except BlockProcErr BeaconState
  treeHash : BeaconState → Nat
  blockRootOf : BeaconBlock → Nat
  buildCommittees : BeaconState → RelativeEpoch → Bool
  committeeCacheOf : BeaconState → RelativeEpoch → Nat
  buildAllCaches : BeaconState → Bool
  beaconCommittee : Nat → Nat → Nat → Option (List Nat)
  indexedAttIndices : List Nat → Attestation → Except Nat (List Nat)
  signatureValid : List Nat → Attestation → Nat → Bool
  taskStart : Nat
  nowAt : Nat → Nat
  eth1DataFor : BeaconState → Except Nat Nat
  depositsFor : BeaconState → Nat → Except Nat (List Nat)
  getSlashings : BeaconState → List Nat × List Nat
  getAttestations : BeaconState → Except Nat (List Nat)
  getVoluntaryExits : BeaconState → List Nat

/-- The mutable components of the `BeaconChain` object, plus the slot-clock
reading, the event list and the persistence write log. -/
structure ChainState where
  forkChoice : List (Nat × Nat × Nat)
  forkChoiceAtts : List (List Nat)
  storeBlocks : List (Nat × SignedBeaconBlock)
  storeStates : List (Nat × BeaconState)
  genesisBlockRoot : Nat
  head : CheckPoint
  currentSlot : Option Nat
  shufflingCache : List (Nat × Nat × Nat)
  pubkeyCacheLen : Nat
  headTracker : List (Nat × Nat)
  opPool : List Nat
  eth1Connected : Bool
  events : List EventKind
  writeLog : List StoreWrite
deriving DecidableEq

def MAXIMUM_BLOCK_SLOT_NUMBER : Nat := 4294967296

def GRAFFITI : String := "sigp/lighthouse-0.1.1-prerelease"

/-- `GRAFFITI.as_bytes()` copied (`copy_from_slice`) into the 32-byte
graffiti field; the string is ASCII so the bytes are the code points. -/
def graffitiBytes : List Nat := GRAFFITI.toList.map Char.toNat

/-- `ForkChoice::contains_block`. -/
def containsBlock (c : ChainState) (root : Nat) : Bool :=
  c.forkChoice.any (fun e => e.1 == root)

/-- `ForkChoice::block_slot_and_state_root`. -/
def fcLookup (c : ChainState) (root : Nat) : Option (Nat × Nat) :=
  (c.forkChoice.find? (fun e => e.1 == root)).map (fun e => e.2)

/-- `Store::get_block`. -/
def storeGetBlock (c : ChainState) (root : Nat) : Option SignedBeaconBlock :=
  (c.storeBlocks.find? (fun e => e.1 == root)).map (fun e => e.2)

/-- `Store::get_state` (also standing in for
`get_state_caching_only_with_committee_caches`, which differs only in the
caches carried). -/
def storeGetState (c : ChainState) (root : Nat) : Option BeaconState :=
  (c.storeStates.find? (fun e => e.1 == root)).map (fun e => e.2)

/-- `BeaconState::get_block_root` (the historical block-roots ring modelled
as an association list). -/
def getBlockRoot (s : BeaconState) (slot : Nat) : Option Nat :=
  (s.blockRoots.find? (fun e => e.1 == slot)).map (fun e => e.2)

/-- Lookup of the shuffling cache at `(epoch, target_root)`. -/
def shufflingLookup (c : ChainState) (epoch : Nat) (root : Nat) :
    Option Nat :=
  (c.shufflingCache.find? (fun e => e.1 == epoch && e.2.1 == root)).map
    (fun e => e.2.2)

/-- `Nat::start_slot`. -/
def epochStartSlot (env : Env) (e : Nat) : Nat := e * env.slotsPerEpoch

/-- `Nat::epoch`. -/
def epochOfSlot (env : Env) (s : Nat) : Nat := s / env.slotsPerEpoch

/-- `RelativeEpoch::from_epoch base other`. -/
def relativeEpochFrom (base other : Nat) : Option RelativeEpoch :=
  if other == base then some RelativeEpoch.Current
  else if other + 1 == base then some RelativeEpoch.Previous
  else if other == base + 1 then some RelativeEpoch.Next
  else none

/-- The skip loop of the attestation cache-miss path (`while
state.current_epoch() + 1 < attestation_epoch`), substituting the zero hash
for the state roots.  `fuel` bounds the iterations; it is always sufficient
when `per_slot_processing` advances the slot by one. -/
def skipToEpoch (env : Env) (e : Nat) : Nat → BeaconState →
    Except BeaconChainError BeaconState
  | 0, st =>
    if epochOfSlot env st.slot + 1 < e then Except.error BeaconChainError.ModelFuelExhausted
    else Except.ok st
  | fuel + 1, st =>
    if epochOfSlot env st.slot + 1 < e then
      match env.perSlotProcessing st (some 0) with
      | Except.error er => Except.error (BeaconChainError.BeaconStateError er)
      | Except.ok st2 => skipToEpoch env e fuel st2
    else Except.ok st

/-- The cache-miss committee computation of `process_attestation_internal`:
load the state at the target block's `(state_root, slot)`, skip-process with
zero state roots up to the attestation epoch, and build the relative-epoch
committee cache. -/
def committeeCacheFromState (env : Env) (c : ChainState) (e : Nat)
    (_targetBlockSlot : Nat) (targetBlockStateRoot : Nat) :
    Except BeaconChainError Nat :=
  match storeGetState c targetBlockStateRoot with
  | none => Except.error (BeaconChainError.MissingBeaconState targetBlockStateRoot)
  | some st =>
    match skipToEpoch env e ((e + 1) * env.slotsPerEpoch) st with
    | Except.error er => Except.error er
    | Except.ok st2 =>
      match relativeEpochFrom (epochOfSlot env st2.slot) e with
      | none => Except.error BeaconChainError.IncorrectStateForAttestation
      | some rel =>
        if env.buildCommittees st2 rel then Except.ok (env.committeeCacheOf st2 rel)
        else Except.error (BeaconChainError.BeaconStateError 0)

/-- The committee cache a from-scratch build would produce for a shuffling
cache key `(e, r)`: resolve `r` through fork choice, then run the cache-miss
computation. -/
def fromScratchCache (env : Env) (c : ChainState) (e : Nat) (r : Nat) :
    Option Nat :=
  match fcLookup c r with
  | none => none
  | some (tslot, tsroot) => (committeeCacheFromState env c e tslot tsroot).toOption

/-- Every shuffling-cache entry equals what a from-scratch build on the
corresponding state would produce. -/
def cacheCoherentB (env : Env) (c : ChainState) : Bool :=
  c.shufflingCache.all (fun p => fromScratchCache env c p.1 p.2.1 == some p.2.2)

/-- Every stored state is keyed by its own tree-hash root. -/
def storeTHB (env : Env) (c : ChainState) : Bool :=
  c.storeStates.all (fun p => p.1 == env.treeHash p.2)

/-- Tail of `process_attestation_internal` once a committee cache for the
attestation is at hand: committee lookup, indexed attestation, pubkey-cache
reads, signature check, fork-choice and op-pool insertion. -/
def finishAttestation (env : Env) (c : ChainState) (a : Attestation)
    (cc : Nat) :
    ChainState × Except BeaconChainError AttestationProcessingOutcome :=
  match env.beaconCommittee cc a.data.slot a.data.index with
  | none =>
    (c, Except.ok (AttestationProcessingOutcome.NoCommitteeForSlotAndIndex
      a.data.slot a.data.index))
  | some committee =>
    match env.indexedAttIndices committee a with
    | Except.error e => (c, Except.error (BeaconChainError.BeaconStateError e))
    | Except.ok indices =>
      if indices.all (fun i => decide (i < c.pubkeyCacheLen)) then
        let fork := c.head.beaconState.fork
        if env.signatureValid indices a fork then
          let c1 := { c with forkChoiceAtts := indices :: c.forkChoiceAtts }
          let c2 := if c.eth1Connected then { c1 with opPool := a.data.slot :: c1.opPool }
                    else c1
          (c2, Except.ok AttestationProcessingOutcome.Processed)
        else (c, Except.ok AttestationProcessingOutcome.InvalidSignature)
      else
        (c, Except.error (BeaconChainError.ValidatorPubkeyCacheIncomplete
          ((indices.filter (fun i => decide (c.pubkeyCacheLen ≤ i))).headD 0)))

/-- `BeaconChain::process_attestation_internal`. -/
def process_attestation_internal (env : Env) (c : ChainState) (a : Attestation) :
    ChainState × Except BeaconChainError AttestationProcessingOutcome :=
  if a.aggregationBits.count true == 0 then
    (c, Except.ok AttestationProcessingOutcome.EmptyAggregationBitfield)
  else
    match c.currentSlot with
    | none => (c, Except.error BeaconChainError.UnableToReadSlot)
    | some nowSlot =>
      let attestationEpoch := epochOfSlot env a.data.slot
      let epochNow := epochOfSlot env nowSlot
      if attestationEpoch > epochNow then
        (c, Except.ok (AttestationProcessingOutcome.FutureEpoch attestationEpoch epochNow))
      else if attestationEpoch + 1 < epochNow then
        (c, Except.ok (AttestationProcessingOutcome.PastEpoch attestationEpoch epochNow))
      else if a.data.target.epoch != attestationEpoch then
        (c, Except.ok AttestationProcessingOutcome.BadTargetEpoch)
      else
        match fcLookup c a.data.target.root with
        | none => (c, Except.ok (AttestationProcessingOutcome.UnknownTargetRoot a.data.target.root))
        | some (targetBlockSlot, targetBlockStateRoot) =>
          match fcLookup c a.data.beaconBlockRoot with
          | none =>
            (c, Except.ok (AttestationProcessingOutcome.UnknownHeadBlock a.data.beaconBlockRoot))
          | some (blockSlot, _) =>
            if blockSlot > a.data.slot then
              (c, Except.ok (AttestationProcessingOutcome.AttestsToFutureBlock
                blockSlot a.data.slot))
            else
              match shufflingLookup c attestationEpoch a.data.target.root with
              | some cc => finishAttestation env c a cc
              | none =>
                match committeeCacheFromState env c attestationEpoch
                    targetBlockSlot targetBlockStateRoot with
                | Except.error er => (c, Except.error er)
                | Except.ok cc =>
                  let c1 := { c with shufflingCache :=
                    (attestationEpoch, a.data.target.root, cc) :: c.shufflingCache }
                  finishAttestation env c1 a cc

/-- The catch-up loop of block ingress: transition the parent state to the
block slot, staging every newly reached state (`i > 0`) for a batched store
write.  Called with `fuel = block.slot - parent_state.slot` and
`first = true`; the iteration count is exactly the source's `distance`. -/
def catchupLoop (env : Env) (parentStateRoot : Nat) :
    Nat → Bool → BeaconState → List (Nat × BeaconState) →
    Except Nat (BeaconState × List (Nat × BeaconState))
  | 0, _, st, batch => Except.ok (st, batch)
  | fuel + 1, first, st, batch =>
    let sr := if first then parentStateRoot else env.treeHash st
    let batch2 := if first then batch else batch ++ [(env.treeHash st, st)]
    match env.perSlotProcessing st (some sr) with
    | Except.error e => Except.error e
    | Except.ok st2 => catchupLoop env parentStateRoot fuel false st2 batch2

/-- `BeaconChain::process_block_internal`.  Fork-choice registration errors
are logged but not fatal in the source; fork choice itself is repository code
outside `src/`, modelled from the spec interface as an insertion into the
block DAG.  The ingress wrapper `process_block` only adds trace logging and
event-bus notification around this function. -/
def process_block_internal (env : Env) (c : ChainState)
    (signedBlock : SignedBeaconBlock) :
    ChainState × Except BeaconChainError BlockProcessingOutcome :=
  let block := signedBlock.message
  let finalizedSlot := epochStartSlot env c.head.beaconState.finalizedCheckpoint.epoch
  if block.slot == 0 then (c, Except.ok BlockProcessingOutcome.GenesisBlock)
  else if block.slot ≥ MAXIMUM_BLOCK_SLOT_NUMBER then
    (c, Except.ok BlockProcessingOutcome.BlockSlotLimitReached)
  else if block.slot ≤ finalizedSlot then
    (c, Except.ok (BlockProcessingOutcome.WouldRevertFinalizedSlot block.slot finalizedSlot))
  else if !containsBlock c block.parentRoot then
    (c, Except.ok (BlockProcessingOutcome.ParentUnknown block.parentRoot
      ReferenceLocation.fork_choice))
  else
    let blockRoot := env.blockRootOf block
    if blockRoot == c.genesisBlockRoot then
      (c, Except.ok BlockProcessingOutcome.GenesisBlock)
    else
      match c.currentSlot with
      | none => (c, Except.error BeaconChainError.UnableToReadSlot)
      | some presentSlot =>
        if block.slot > presentSlot then
          (c, Except.ok (BlockProcessingOutcome.FutureSlot presentSlot block.slot))
        else if containsBlock c blockRoot then
          (c, Except.ok BlockProcessingOutcome.BlockIsAlreadyKnown)
        else
          match storeGetBlock c block.parentRoot with
          | none =>
            (c, Except.ok (BlockProcessingOutcome.ParentUnknown block.parentRoot
              ReferenceLocation.database))
          | some parentBlock =>
            match storeGetState c parentBlock.message.stateRoot with
            | none =>
              (c, Except.error (BeaconChainError.DBInconsistent parentBlock.message.stateRoot))
            | some parentState =>
              match catchupLoop env parentBlock.message.stateRoot
                  (block.slot - parentState.slot) true parentState [] with
              | Except.error e => (c, Except.error (BeaconChainError.BeaconStateError e))
              | Except.ok (st0, intermediates) =>
                if !env.buildCommittees st0 RelativeEpoch.Previous then
                  (c, Except.error (BeaconChainError.BeaconStateError 0))
                else if !env.buildCommittees st0 RelativeEpoch.Current then
                  (c, Except.error (BeaconChainError.BeaconStateError 0))
                else
                  match env.perBlockProcessing st0 signedBlock (some blockRoot)
                      BlockSignatureStrategy.VerifyBulk with
                  | Except.error (BlockProcErr.beaconStateError e) =>
                    (c, Except.error (BeaconChainError.BeaconStateError e))
                  | Except.error (BlockProcErr.other e) =>
                    (c, Except.ok (BlockProcessingOutcome.PerBlockProcessingError e))
                  | Except.ok post =>
                    let stateRoot := env.treeHash post
                    if block.stateRoot != stateRoot then
                      (c, Except.ok (BlockProcessingOutcome.StateRootMismatch
                        block.stateRoot stateRoot))
                    else
                      let newPubkeyLen := max c.pubkeyCacheLen post.numValidators
                      let c1 := { c with pubkeyCacheLen := newPubkeyLen }
                      let epochNow := epochOfSlot env presentSlot
                      let curEpoch := epochOfSlot env post.slot
                      let shufflingStep :
                          Except BeaconChainError ChainState :=
                        if curEpoch + 1 ≥ epochNow
                            && epochOfSlot env parentBlock.message.slot != curEpoch then
                          let vc := env.committeeCacheOf post RelativeEpoch.Current
                          let startSlot := epochStartSlot env curEpoch
                          if post.slot == startSlot then
                            let sc := (curEpoch, blockRoot, vc) :: c1.shufflingCache
                            Except.ok { c1 with shufflingCache := sc }
                          else
                            match getBlockRoot post startSlot with
                            | none => Except.error (BeaconChainError.BeaconStateError 0)
                            | some targetRoot =>
                              let sc := (curEpoch, targetRoot, vc) :: c1.shufflingCache
                              Except.ok { c1 with shufflingCache := sc }
                        else Except.ok c1
                      match shufflingStep with
                      | Except.error e => (c1, Except.error e)
                      | Except.ok c2 =>
                        let c3 := { c2 with
                          forkChoice := (blockRoot, block.slot, stateRoot) :: c2.forkChoice,
                          headTracker := (blockRoot, block.slot) ::
                            c2.headTracker.filter (fun p => p.1 != block.parentRoot),
                          storeStates := (stateRoot, post) ::
                            (intermediates.reverse ++ c2.storeStates),
                          storeBlocks := (blockRoot, signedBlock) :: c2.storeBlocks }
                        (c3, Except.ok (BlockProcessingOutcome.Processed blockRoot))

/-- `BeaconChain::persist_head_and_fork_choice`: read the canonical head
block root, write the fork-choice snapshot under `FORK_CHOICE_DB_KEY`, then
write the beacon-chain head snapshot under `BEACON_CHAIN_DB_KEY`. -/
def persist_head_and_fork_choice (c : ChainState) : ChainState :=
  let canonicalHeadBlockRoot := c.head.beaconBlockRoot
  let persistedHead : PersistedBeaconChain :=
    { canonicalHeadBlockRoot := canonicalHeadBlockRoot,
      genesisBlockRoot := c.genesisBlockRoot,
      sszHeadTracker := c.headTracker }
  let log1 := c.writeLog ++ [StoreWrite.forkChoiceWrite c.forkChoice]
  let c1 := { c with writeLog := log1 }
  let log2 := c1.writeLog ++ [StoreWrite.headWrite persistedHead]
  { c1 with writeLog := log2 }

/-- `BeaconChain::after_finalization`.  Fork-choice pruning, op-pool pruning
and store freezing act only on components outside the modelled fields (they
never touch the canonical head snapshot), so they are modelled as identities
on `ChainState` apart from the emitted `BeaconFinalization` event. -/
def after_finalization (env : Env) (c : ChainState) (oldFinalizedEpoch : Nat)
    (finalizedBlockRoot : Nat) : ChainState × Except BeaconChainError Unit :=
  match storeGetBlock c finalizedBlockRoot with
  | none => (c, Except.error (BeaconChainError.MissingBeaconBlock finalizedBlockRoot))
  | some finalizedBlock =>
    let newFinalizedEpoch := epochOfSlot env finalizedBlock.message.slot
    if newFinalizedEpoch < oldFinalizedEpoch then
      (c, Except.error (BeaconChainError.RevertedFinalizedEpoch
        oldFinalizedEpoch newFinalizedEpoch))
    else
      match storeGetState c finalizedBlock.message.stateRoot with
      | none =>
        (c, Except.error (BeaconChainError.MissingBeaconState
          finalizedBlock.message.stateRoot))
      | some _finalizedState =>
        let ev := c.events ++ [EventKind.BeaconFinalization newFinalizedEpoch
          finalizedBlockRoot]
        ({ c with events := ev }, Except.ok ())

/-- `BeaconChain::fork_choice`: elect the head and enthrone it as the
canonical head snapshot.  `ForkChoice::find_head` is repository code outside
`src/` and is abstracted as `env.findHead`; the `Nat::random()` fallback
used when the previous head's slot is absent from the new state's block-roots
ring is modelled as declaring a re-org. -/
def fork_choice (env : Env) (findHead : ChainState → Except BeaconChainError Nat)
    (c : ChainState) : ChainState × Except BeaconChainError Unit :=
  match findHead c with
  | Except.error e => (c, Except.error e)
  | Except.ok beaconBlockRoot =>
    if beaconBlockRoot == c.head.beaconBlockRoot then (c, Except.ok ())
    else
      match storeGetBlock c beaconBlockRoot with
      | none => (c, Except.error (BeaconChainError.MissingBeaconBlock beaconBlockRoot))
      | some beaconBlock =>
        match storeGetState c beaconBlock.message.stateRoot with
        | none =>
          (c, Except.error (BeaconChainError.MissingBeaconState
            beaconBlock.message.stateRoot))
        | some beaconState =>
          let previousSlot := c.head.beaconBlock.message.slot
          let newSlot := beaconBlock.message.slot
          let isReorg :=
            match getBlockRoot beaconState previousSlot with
            | some r => c.head.beaconBlockRoot != r
            | none => true
          let oldFinalizedEpoch := c.head.beaconState.finalizedCheckpoint.epoch
          let newFinalizedEpoch := beaconState.finalizedCheckpoint.epoch
          let finalizedRoot := beaconState.finalizedCheckpoint.root
          if newFinalizedEpoch < oldFinalizedEpoch then
            (c, Except.error (BeaconChainError.RevertedFinalizedEpoch
              oldFinalizedEpoch newFinalizedEpoch))
          else
            let previousHeadRoot := c.head.beaconBlockRoot
            if !env.buildAllCaches beaconState then
              (c, Except.error (BeaconChainError.BeaconStateError 0))
            else
              let newHead : CheckPoint :=
                { beaconBlock := beaconBlock,
                  beaconBlockRoot := beaconBlockRoot,
                  beaconState := beaconState,
                  beaconStateRoot := beaconBlock.message.stateRoot }
              let c1 := { c with head := newHead }
              let c2 :=
                if epochOfSlot env previousSlot < epochOfSlot env newSlot || isReorg then
                  persist_head_and_fork_choice c1
                else c1
              let ev := c2.events ++ [EventKind.BeaconHeadChanged isReorg
                previousHeadRoot beaconBlockRoot]
              let c3 := { c2 with events := ev }
              if newFinalizedEpoch != oldFinalizedEpoch then
                after_finalization env c3 oldFinalizedEpoch finalizedRoot
              else (c3, Except.ok ())

/-- The reverse state-root iterator started from the canonical head: the head
pair first, then the head state's state-roots ring walked backwards. -/
def revStateRootIter (c : ChainState) : List (Nat × Nat) :=
  (c.head.beaconStateRoot, c.head.beaconState.slot) ::
    (List.range c.head.beaconState.slot).reverse.filterMap
      (fun s => ((c.head.beaconState.stateRoots.find? (fun e => e.1 == s)).map
        (fun e => (e.2, s))))

/-- The forward skip loop of `state_at_slot` (`while state.slot < slot`),
with the wall-clock budget check at the top of every iteration (`k` counts
iterations, `env.nowAt k` is the `Instant::now()` observation of iteration
`k`).  A `per_slot_processing` error is reported as `NoStateForSlot`. -/
def stateSkipLoop (env : Env) (startSlot targetSlot : Nat) :
    Nat → Nat → BeaconState → Option Nat → Except BeaconChainError BeaconState
  | 0, _, st, _ =>
    if st.slot < targetSlot then Except.error BeaconChainError.ModelFuelExhausted
    else Except.ok st
  | fuel + 1, k, st, skipRoot =>
    if st.slot < targetSlot then
      if env.taskStart + env.millisecondsPerSlot < env.nowAt k then
        Except.error (BeaconChainError.StateSkipTooLarge startSlot targetSlot
          env.millisecondsPerSlot)
      else
        match env.perSlotProcessing st skipRoot with
        | Except.error _ => Except.error (BeaconChainError.NoStateForSlot targetSlot)
        | Except.ok st2 => stateSkipLoop env startSlot targetSlot fuel (k + 1) st2 skipRoot
    else Except.ok st

/-- `BeaconChain::state_at_slot`. -/
def state_at_slot (env : Env) (c : ChainState) (slot : Nat)
    (config : StateSkipConfig) : Except BeaconChainError BeaconState :=
  let headState := c.head.beaconState
  if slot == headState.slot then Except.ok headState
  else if slot > headState.slot then
    let skipStateRoot : Option Nat :=
      match config with
      | StateSkipConfig.WithStateRoots => none
      | StateSkipConfig.WithoutStateRoots => some 0
    stateSkipLoop env headState.slot slot (slot - headState.slot) 0 headState skipStateRoot
  else
    match ((revStateRootIter c).takeWhile (fun p => decide (p.2 ≥ slot))).find?
        (fun p => p.2 == slot) with
    | none => Except.error (BeaconChainError.NoStateForSlot slot)
    | some (stateRoot, _) =>
      match storeGetState c stateRoot with
      | none => Except.error (BeaconChainError.NoStateForSlot slot)
      | some st => Except.ok st

/-- The advance loop of `produce_block_on_state` (`while state.slot <
produce_at_slot`, with `state_root = None`). -/
def produceAdvanceLoop (env : Env) (targetSlot : Nat) :
    Nat → BeaconState → Except Nat BeaconState
  | 0, st => if st.slot < targetSlot then Except.error 0 else Except.ok st
  | fuel + 1, st =>
    if st.slot < targetSlot then
      match env.perSlotProcessing st none with
      | Except.error e => Except.error e
      | Except.ok st2 => produceAdvanceLoop env targetSlot fuel st2
    else Except.ok st

/-- `Signature::empty_signature()`. -/
def emptySignature : Nat := 0

/-- `BeaconChain::produce_block_on_state`, kept as the signed intermediate
the source assembles (the source returns `(block.message, state)`; see
`produce_block_on_state`).  The first step requires the eth1 chain. -/
def produce_signed_block_on_state (env : Env) (c : ChainState)
    (state0 : BeaconState) (produceAtSlot : Nat) (randaoReveal : Nat) :
    Except BlockProductionError (SignedBeaconBlock × BeaconState) :=
  if !c.eth1Connected then Except.error BlockProductionError.NoEth1ChainConnection
  else
    match produceAdvanceLoop env produceAtSlot (produceAtSlot - state0.slot) state0 with
    | Except.error e => Except.error (BlockProductionError.StateError e)
    | Except.ok state1 =>
      if !env.buildCommittees state1 RelativeEpoch.Current then
        Except.error (BlockProductionError.StateError 0)
      else
        let parentRootE : Except BlockProductionError Nat :=
          if state1.slot > 0 then
            match getBlockRoot state1 (state1.slot - 1) with
            | none => Except.error BlockProductionError.UnableToGetBlockRootFromState
            | some r => Except.ok r
          else Except.ok state1.latestBlockHeaderRoot
        match parentRootE with
        | Except.error e => Except.error e
        | Except.ok parentRoot =>
          let slashings := env.getSlashings state1
          match env.eth1DataFor state1 with
          | Except.error e => Except.error (BlockProductionError.StateError e)
          | Except.ok eth1Data =>
            match env.depositsFor state1 eth1Data with
            | Except.error e => Except.error (BlockProductionError.StateError e)
            | Except.ok deposits =>
              match env.getAttestations state1 with
              | Except.error e => Except.error (BlockProductionError.OpPoolError e)
              | Except.ok attList =>
                let body : BeaconBlockBody :=
                  { randaoReveal := randaoReveal,
                    eth1Data := eth1Data,
                    graffiti := graffitiBytes,
                    proposerSlashings := slashings.1,
                    attesterSlashings := slashings.2,
                    attestations := attList,
                    deposits := deposits,
                    voluntaryExits := env.getVoluntaryExits state1 }
                let blk : SignedBeaconBlock :=
                  { message :=
                      { slot := state1.slot,
                        parentRoot := parentRoot,
                        stateRoot := 0,
                        body := body },
                    signature := emptySignature }
                match env.perBlockProcessing state1 blk none
                    BlockSignatureStrategy.NoVerification with
                | Except.error (BlockProcErr.beaconStateError e) =>
                  Except.error (BlockProductionError.BlockProcessingError e)
                | Except.error (BlockProcErr.other e) =>
                  Except.error (BlockProductionError.BlockProcessingError e)
                | Except.ok state2 =>
                  let stateRoot := env.treeHash state2
                  let msg := { blk.message with stateRoot := stateRoot }
                  Except.ok ({ blk with message := msg }, state2)

/-- `BeaconChain::produce_block_on_state` as the source returns it: the bare
`BeaconBlock` message of the assembled signed container, and the post
state. -/
def produce_block_on_state (env : Env) (c : ChainState) (state0 : BeaconState)
    (produceAtSlot : Nat) (randaoReveal : Nat) :
    Except BlockProductionError (BeaconBlock × BeaconState) :=
  (produce_signed_block_on_state env c state0 produceAtSlot randaoReveal).map
    (fun p => (p.1.message, p.2))

/-- `BeaconChain::produce_block`. -/
def produce_block (env : Env) (c : ChainState) (randaoReveal : Nat)
    (slot : Nat) : Except BlockProductionError (BeaconBlock × BeaconState) :=
  match state_at_slot env c (slot - 1) StateSkipConfig.WithStateRoots with
  | Except.error _ => Except.error (BlockProductionError.UnableToProduceAtSlot slot)
  | Except.ok st => produce_block_on_state env c st slot randaoReveal

/-- The claimed classified-rejection cascade for block ingress, written from
the spec's ordered list (section 4.A.5): each check fires only if every
earlier one passed.  Checks from the `FutureSlot` one onwards need the slot
clock; when the clock is unreadable no classified rejection is claimed. -/
def claimedBlockRejection (env : Env) (c : ChainState)
    (signedBlock : SignedBeaconBlock) : Option BlockProcessingOutcome :=
  let block := signedBlock.message
  let finalizedSlot := epochStartSlot env c.head.beaconState.finalizedCheckpoint.epoch
  if block.slot == 0 then some BlockProcessingOutcome.GenesisBlock
  else if block.slot ≥ 4294967296 then some BlockProcessingOutcome.BlockSlotLimitReached
  else if block.slot ≤ finalizedSlot then
    some (BlockProcessingOutcome.WouldRevertFinalizedSlot block.slot finalizedSlot)
  else if !containsBlock c block.parentRoot then
    some (BlockProcessingOutcome.ParentUnknown block.parentRoot
      ReferenceLocation.fork_choice)
  else if env.blockRootOf block == c.genesisBlockRoot then
    some BlockProcessingOutcome.GenesisBlock
  else
    match c.currentSlot with
    | none => none
    | some presentSlot =>
      if block.slot > presentSlot then
        some (BlockProcessingOutcome.FutureSlot presentSlot block.slot)
      else if containsBlock c (env.blockRootOf block) then
        some BlockProcessingOutcome.BlockIsAlreadyKnown
      else
        match storeGetBlock c block.parentRoot with
        | none => some (BlockProcessingOutcome.ParentUnknown block.parentRoot
            ReferenceLocation.database)
        | some _ => none

/-- The claimed classified-rejection cascade for attestation ingress, written
from the spec's ordered list (section 4.A.4). -/
def claimedAttRejection (env : Env) (c : ChainState) (a : Attestation) :
    Option AttestationProcessingOutcome :=
  if a.aggregationBits.count true == 0 then
    some AttestationProcessingOutcome.EmptyAggregationBitfield
  else
    match c.currentSlot with
    | none => none
    | some nowSlot =>
      let attestationEpoch := epochOfSlot env a.data.slot
      let epochNow := epochOfSlot env nowSlot
      if attestationEpoch > epochNow then
        some (AttestationProcessingOutcome.FutureEpoch attestationEpoch epochNow)
      else if attestationEpoch + 1 < epochNow then
        some (AttestationProcessingOutcome.PastEpoch attestationEpoch epochNow)
      else if a.data.target.epoch != attestationEpoch then
        some AttestationProcessingOutcome.BadTargetEpoch
      else
        match fcLookup c a.data.target.root with
        | none => some (AttestationProcessingOutcome.UnknownTargetRoot a.data.target.root)
        | some _ =>
          match fcLookup c a.data.beaconBlockRoot with
          | none =>
            some (AttestationProcessingOutcome.UnknownHeadBlock a.data.beaconBlockRoot)
          | some (blockSlot, _) =>
            if blockSlot > a.data.slot then
              some (AttestationProcessingOutcome.AttestsToFutureBlock blockSlot a.data.slot)
            else none

/-! Concrete instances used by the witnesses. -/

deriving instance DecidableEq for Except

def dummyBody : BeaconBlockBody :=
  { randaoReveal := 0, eth1Data := 0, graffiti := [], proposerSlashings := [],
    attesterSlashings := [], attestations := [], deposits := [],
    voluntaryExits := [] }

def mkBlock (slot parentRoot stateRoot : Nat) : BeaconBlock :=
  { slot := slot, parentRoot := parentRoot, stateRoot := stateRoot,
    body := dummyBody }

def mkSigned (b : BeaconBlock) : SignedBeaconBlock :=
  { message := b, signature := 0 }

def mkState0 (slot finEpoch : Nat) : BeaconState :=
  { slot := slot, finalizedCheckpoint := { epoch := finEpoch, root := 0 },
    currentJustifiedCheckpoint := { epoch := 0, root := 0 }, fork := 0,
    numValidators := 0, latestBlockHeaderRoot := 0, blockRoots := [],
    stateRoots := [] }

def mkHead (b : SignedBeaconBlock) (root : Nat) (st : BeaconState)
    (sroot : Nat) : CheckPoint :=
  { beaconBlock := b, beaconBlockRoot := root, beaconState := st,
    beaconStateRoot := sroot }

def mkChain (head : CheckPoint) : ChainState :=
  { forkChoice := [], forkChoiceAtts := [], storeBlocks := [], storeStates := [],
    genesisBlockRoot := 999, head := head, currentSlot := some 100,
    shufflingCache := [], pubkeyCacheLen := 0, headTracker := [], opPool := [],
    eth1Connected := true, events := [], writeLog := [] }

/-- A fully concrete environment: the state transition advances one slot,
block application is the identity, the roots are simple injections on the
data actually exercised. -/
def baseEnv : Env :=
  { slotsPerEpoch := 8, millisecondsPerSlot := 12000,
    perSlotProcessing := fun s _ => Except.ok { s with slot := s.slot + 1 },
    perBlockProcessing := fun s _ _ _ => Except.ok s,
    treeHash := fun s => s.slot + 1000,
    blockRootOf := fun b => b.slot + 2000,
    buildCommittees := fun _ _ => true,
    committeeCacheOf := fun s _ => s.slot,
    buildAllCaches := fun _ => true,
    beaconCommittee := fun _ _ _ => some [0],
    indexedAttIndices := fun committee _ => Except.ok committee,
    signatureValid := fun _ _ _ => true,
    taskStart := 0, nowAt := fun _ => 0,
    eth1DataFor := fun _ => Except.ok 0,
    depositsFor := fun _ _ => Except.ok [],
    getSlashings := fun _ => ([], []),
    getAttestations := fun _ => Except.ok [],
    getVoluntaryExits := fun _ => [] }

/-! ## C2: order of the classified rejections of block ingress -/

/-- Claim C2: for every signed block submitted to `process_block`, the
classified rejections are decided in the spec's order, an earlier check
taking precedence over every later one: `slot == 0` gives `GenesisBlock`;
`slot >= 2^32` gives `BlockSlotLimitReached` (so slot exactly `2^32` is
rejected); `slot <= finalized_slot` gives `WouldRevertFinalizedSlot` (so slot
exactly `finalized_slot` is rejected); an unknown parent gives
`ParentUnknown` located at fork choice; the genesis canonical root gives
`GenesisBlock`; a slot beyond the wall clock gives `FutureSlot`; a block root
already in fork choice gives `BlockIsAlreadyKnown`; a parent absent from the
store gives `ParentUnknown` located at the database.  Whenever the cascade
`claimedBlockRejection` (transcribed from the spec) fires, the code returns
exactly that outcome, with the chain unchanged. -/
theorem C2_block_rejection_order (env : Env) (c : ChainState)
    (b : SignedBeaconBlock) (o : BlockProcessingOutcome)
    (h : claimedBlockRejection env c b = some o) :
    process_block_internal env c b = (c, Except.ok o) := by
  unfold claimedBlockRejection at h
  unfold process_block_internal
  by_cases h0 : b.message.slot = 0
  · simp [h0] at h
    simp [h0, ← h]
  · simp only [h0] at h ⊢
    by_cases h1 : 4294967296 ≤ b.message.slot
    · simp [h0, h1, MAXIMUM_BLOCK_SLOT_NUMBER] at h ⊢
      exact h
    · by_cases h2 : b.message.slot ≤ epochStartSlot env c.head.beaconState.finalizedCheckpoint.epoch
      · simp [h0, h1, h2, MAXIMUM_BLOCK_SLOT_NUMBER] at h ⊢
        exact h
      · by_cases h3 : containsBlock c b.message.parentRoot = true
        · by_cases h4 : env.blockRootOf b.message = c.genesisBlockRoot
          · simp [h0, h1, h2, h3, h4, MAXIMUM_BLOCK_SLOT_NUMBER] at h ⊢
            exact h
          · cases hcs : c.currentSlot with
            | none =>
              simp [h0, h1, h2, h3, h4, hcs, MAXIMUM_BLOCK_SLOT_NUMBER] at h
            | some ps =>
              by_cases h5 : ps < b.message.slot
              · simp [h0, h1, h2, h3, h4, hcs, h5, MAXIMUM_BLOCK_SLOT_NUMBER] at h ⊢
                exact h
              · by_cases h6 : containsBlock c (env.blockRootOf b.message) = true
                · simp [h0, h1, h2, h3, h4, hcs, h5, h6, MAXIMUM_BLOCK_SLOT_NUMBER] at h ⊢
                  exact h
                · cases hsb : storeGetBlock c b.message.parentRoot with
                  | none =>
                    simp [h0, h1, h2, h3, h4, hcs, h5, h6, hsb,
                      MAXIMUM_BLOCK_SLOT_NUMBER] at h ⊢
                    exact h
                  | some pb =>
                    simp [h0, h1, h2, h3, h4, hcs, h5, h6, hsb,
                      MAXIMUM_BLOCK_SLOT_NUMBER] at h
        · simp [h0, h1, h2, h3, MAXIMUM_BLOCK_SLOT_NUMBER] at h ⊢
          exact h

def chainC2 : ChainState :=
  mkChain (mkHead (mkSigned (mkBlock 0 0 0)) 0 (mkState0 8 1) 0)

def blockC2 : SignedBeaconBlock := mkSigned (mkBlock 8 0 0)

/-- Witness for C2 at the `WouldRevertFinalizedSlot` boundary: a block at
slot exactly the finalized slot (epoch 1, 8 slots per epoch). -/
theorem C2_block_rejection_order_witness :
    process_block_internal baseEnv chainC2 blockC2 =
      (chainC2, Except.ok (BlockProcessingOutcome.WouldRevertFinalizedSlot 8 8)) :=
  C2_block_rejection_order baseEnv chainC2 blockC2
    (BlockProcessingOutcome.WouldRevertFinalizedSlot 8 8) (by decide)

/-! ## C3: order of the classified rejections of attestation ingress -/

/-- Claim C3: for every attestation submitted to `process_attestation`, the
classified rejections are decided in the spec's order, an earlier check
taking precedence: an empty aggregation bitfield gives
`EmptyAggregationBitfield`; an attestation epoch (the epoch of `data.slot`)
beyond the wall-clock epoch gives `FutureEpoch`; an attestation epoch more
than one epoch old gives `PastEpoch`; a target epoch differing from the
epoch of `data.slot` gives `BadTargetEpoch`; a target root unknown to fork
choice gives `UnknownTargetRoot`; a `beacon_block_root` unknown to fork
choice gives `UnknownHeadBlock`; a named block with slot beyond `data.slot`
gives `AttestsToFutureBlock`.  Whenever the cascade `claimedAttRejection`
(transcribed from the spec) fires, the code returns exactly that outcome,
with the chain unchanged. -/
theorem C3_attestation_rejection_order (env : Env) (c : ChainState)
    (a : Attestation) (o : AttestationProcessingOutcome)
    (h : claimedAttRejection env c a = some o) :
    process_attestation_internal env c a = (c, Except.ok o) := by
  unfold claimedAttRejection at h
  unfold process_attestation_internal
  by_cases b0 : a.aggregationBits.count true = 0
  · simp [b0] at h
    simp [b0, ← h]
  · simp only [b0] at h ⊢
    cases hcs : c.currentSlot with
    | none => simp [b0, hcs] at h
    | some nowSlot =>
      by_cases b1 : epochOfSlot env nowSlot < epochOfSlot env a.data.slot
      · simp [b0, hcs, b1] at h ⊢
        exact h
      · by_cases b2 : epochOfSlot env a.data.slot + 1 < epochOfSlot env nowSlot
        · simp [b0, hcs, b1, b2] at h ⊢
          exact h
        · by_cases b3 : a.data.target.epoch = epochOfSlot env a.data.slot
          · cases hft : fcLookup c a.data.target.root with
            | none =>
              simp [b0, hcs, b1, b2, b3, hft] at h ⊢
              exact h
            | some p =>
              obtain ⟨ts, tsr⟩ := p
              cases hfb : fcLookup c a.data.beaconBlockRoot with
              | none =>
                simp [b0, hcs, b1, b2, b3, hft, hfb] at h ⊢
                exact h
              | some q =>
                obtain ⟨bs, qr⟩ := q
                by_cases b4 : a.data.slot < bs
                · simp [b0, hcs, b1, b2, b3, hft, hfb, b4] at h ⊢
                  exact h
                · simp [b0, hcs, b1, b2, b3, hft, hfb, b4] at h
          · simp [b0, hcs, b1, b2, b3] at h ⊢
            exact h

def mkAttData (slot index beaconBlockRoot srcEpoch srcRoot tgtEpoch tgtRoot : Nat) :
    AttestationData :=
  { slot := slot, index := index, beaconBlockRoot := beaconBlockRoot,
    source := { epoch := srcEpoch, root := srcRoot },
    target := { epoch := tgtEpoch, root := tgtRoot } }

def mkAtt (bits : List Bool) (d : AttestationData) : Attestation :=
  { aggregationBits := bits, data := d, signature := 0 }

def attC3 : Attestation := mkAtt [false, false] (mkAttData 0 0 0 0 0 0 0)

/-- Witness for C3 at the first check: an attestation whose aggregation
bitfield has zero set bits is rejected as `EmptyAggregationBitfield`. -/
theorem C3_attestation_rejection_order_witness :
    process_attestation_internal baseEnv chainC2 attC3 =
      (chainC2, Except.ok AttestationProcessingOutcome.EmptyAggregationBitfield) :=
  C3_attestation_rejection_order baseEnv chainC2 attC3
    AttestationProcessingOutcome.EmptyAggregationBitfield (by decide)

/-! ## C1: postconditions of an accepted block -/

/-- Claim C1: for every signed block for which `process_block` returns
`Processed{block_root}`: fork choice contains `block_root`, the store
contains the block under `block_root`, the store contains the post-state
under `block.state_root`, and `block.state_root` equals the tree-hash root of
the post-state; and when the recomputed tree-hash root disagrees with
`block.state_root` the outcome is `StateRootMismatch` instead (its fields
exhibiting the disagreement) and nothing is registered or stored (the chain
is unchanged). -/
theorem C1_accepted_block_invariants (env : Env) (c : ChainState)
    (b : SignedBeaconBlock) :
    (∀ c' root, process_block_internal env c b =
        (c', Except.ok (BlockProcessingOutcome.Processed root)) →
      containsBlock c' root = true ∧ storeGetBlock c' root = some b ∧
        ∃ post, storeGetState c' b.message.stateRoot = some post ∧
          env.treeHash post = b.message.stateRoot) ∧
    (∀ c' broot lroot, process_block_internal env c b =
        (c', Except.ok (BlockProcessingOutcome.StateRootMismatch broot lroot)) →
      c' = c ∧ broot = b.message.stateRoot ∧ broot ≠ lroot) := by
  constructor
  · intro c' root h
    unfold process_block_internal at h
    by_cases h0 : b.message.slot = 0
    · simp [h0] at h
    · by_cases h1 : 4294967296 ≤ b.message.slot
      · simp [h0, h1, MAXIMUM_BLOCK_SLOT_NUMBER] at h
      · by_cases h2 : b.message.slot ≤ epochStartSlot env c.head.beaconState.finalizedCheckpoint.epoch
        · simp [h0, h1, h2, MAXIMUM_BLOCK_SLOT_NUMBER] at h
        · by_cases h3 : containsBlock c b.message.parentRoot = true
          · by_cases h4 : env.blockRootOf b.message = c.genesisBlockRoot
            · simp [h0, h1, h2, h3, h4, MAXIMUM_BLOCK_SLOT_NUMBER] at h
            · cases hcs : c.currentSlot with
              | none => simp [h0, h1, h2, h3, h4, hcs, MAXIMUM_BLOCK_SLOT_NUMBER] at h
              | some ps =>
                by_cases h5 : ps < b.message.slot
                · simp [h0, h1, h2, h3, h4, hcs, h5, MAXIMUM_BLOCK_SLOT_NUMBER] at h
                · by_cases h6 : containsBlock c (env.blockRootOf b.message) = true
                  · simp [h0, h1, h2, h3, h4, hcs, h5, h6, MAXIMUM_BLOCK_SLOT_NUMBER] at h
                  · cases hsb : storeGetBlock c b.message.parentRoot with
                    | none =>
                      simp [h0, h1, h2, h3, h4, hcs, h5, h6, hsb,
                        MAXIMUM_BLOCK_SLOT_NUMBER] at h
                    | some pb =>
                      cases hps : storeGetState c pb.message.stateRoot with
                      | none =>
                        simp [h0, h1, h2, h3, h4, hcs, h5, h6, hsb, hps,
                          MAXIMUM_BLOCK_SLOT_NUMBER] at h
                      | some parentState =>
                        cases hcu : catchupLoop env pb.message.stateRoot
                            (b.message.slot - parentState.slot) true parentState [] with
                        | error e =>
                          simp [h0, h1, h2, h3, h4, hcs, h5, h6, hsb, hps, hcu,
                            MAXIMUM_BLOCK_SLOT_NUMBER] at h
                        | ok pr =>
                          obtain ⟨st0, inter⟩ := pr
                          by_cases hbp : env.buildCommittees st0 RelativeEpoch.Previous = true
                          · by_cases hbc : env.buildCommittees st0 RelativeEpoch.Current = true
                            · cases hpb : env.perBlockProcessing st0 b
                                  (some (env.blockRootOf b.message))
                                  BlockSignatureStrategy.VerifyBulk with
                              | error er =>
                                cases er with
                                | beaconStateError e =>
                                  simp [h0, h1, h2, h3, h4, hcs, h5, h6, hsb, hps, hcu,
                                    hbp, hbc, hpb, MAXIMUM_BLOCK_SLOT_NUMBER] at h
                                | other e =>
                                  simp [h0, h1, h2, h3, h4, hcs, h5, h6, hsb, hps, hcu,
                                    hbp, hbc, hpb, MAXIMUM_BLOCK_SLOT_NUMBER] at h
                              | ok post =>
                                by_cases hsr : b.message.stateRoot = env.treeHash post
                                · by_cases h7 : epochOfSlot env post.slot + 1 ≥ epochOfSlot env ps
                                  all_goals by_cases h8 : epochOfSlot env pb.message.slot = epochOfSlot env post.slot
                                  all_goals simp [h0, h1, h2, h3, h4, hcs, h5, h6, hsb, hps, hcu,
                                    hbp, hbc, hpb, hsr, h7, h8, MAXIMUM_BLOCK_SLOT_NUMBER] at h
                                  all_goals first
                                    | (obtain ⟨hc3, hroot⟩ := h
                                       subst hc3
                                       subst hroot
                                       refine ⟨?_, ?_, post, ?_, ?_⟩
                                       · simp [containsBlock]
                                       · simp [storeGetBlock]
                                       · rw [hsr]
                                         simp [storeGetState]
                                       · exact hsr.symm)
                                    | (by_cases h9 : post.slot = epochStartSlot env (epochOfSlot env post.slot)
                                       · rw [if_pos h9] at h
                                         simp at h
                                         obtain ⟨hc3, hroot⟩ := h
                                         subst hc3
                                         subst hroot
                                         refine ⟨?_, ?_, post, ?_, ?_⟩
                                         · simp [containsBlock]
                                         · simp [storeGetBlock]
                                         · rw [hsr]
                                           simp [storeGetState]
                                         · exact hsr.symm
                                       · rw [if_neg h9] at h
                                         cases hgr : getBlockRoot post (epochStartSlot env (epochOfSlot env post.slot)) with
                                         | none =>
                                           rw [hgr] at h
                                           simp at h
                                         | some tr =>
                                           rw [hgr] at h
                                           simp at h
                                           obtain ⟨hc3, hroot⟩ := h
                                           subst hc3
                                           subst hroot
                                           refine ⟨?_, ?_, post, ?_, ?_⟩
                                           · simp [containsBlock]
                                           · simp [storeGetBlock]
                                           · rw [hsr]
                                             simp [storeGetState]
                                           · exact hsr.symm)
                                · simp [h0, h1, h2, h3, h4, hcs, h5, h6, hsb, hps, hcu,
                                    hbp, hbc, hpb, hsr, MAXIMUM_BLOCK_SLOT_NUMBER] at h
                            · simp [h0, h1, h2, h3, h4, hcs, h5, h6, hsb, hps, hcu,
                                hbp, hbc, MAXIMUM_BLOCK_SLOT_NUMBER] at h
                          · simp [h0, h1, h2, h3, h4, hcs, h5, h6, hsb, hps, hcu,
                              hbp, MAXIMUM_BLOCK_SLOT_NUMBER] at h
          · simp [h0, h1, h2, h3, MAXIMUM_BLOCK_SLOT_NUMBER] at h
  · intro c' broot lroot h
    unfold process_block_internal at h
    by_cases h0 : b.message.slot = 0
    · simp [h0] at h
    · by_cases h1 : 4294967296 ≤ b.message.slot
      · simp [h0, h1, MAXIMUM_BLOCK_SLOT_NUMBER] at h
      · by_cases h2 : b.message.slot ≤ epochStartSlot env c.head.beaconState.finalizedCheckpoint.epoch
        · simp [h0, h1, h2, MAXIMUM_BLOCK_SLOT_NUMBER] at h
        · by_cases h3 : containsBlock c b.message.parentRoot = true
          · by_cases h4 : env.blockRootOf b.message = c.genesisBlockRoot
            · simp [h0, h1, h2, h3, h4, MAXIMUM_BLOCK_SLOT_NUMBER] at h
            · cases hcs : c.currentSlot with
              | none => simp [h0, h1, h2, h3, h4, hcs, MAXIMUM_BLOCK_SLOT_NUMBER] at h
              | some ps =>
                by_cases h5 : ps < b.message.slot
                · simp [h0, h1, h2, h3, h4, hcs, h5, MAXIMUM_BLOCK_SLOT_NUMBER] at h
                · by_cases h6 : containsBlock c (env.blockRootOf b.message) = true
                  · simp [h0, h1, h2, h3, h4, hcs, h5, h6, MAXIMUM_BLOCK_SLOT_NUMBER] at h
                  · cases hsb : storeGetBlock c b.message.parentRoot with
                    | none =>
                      simp [h0, h1, h2, h3, h4, hcs, h5, h6, hsb,
                        MAXIMUM_BLOCK_SLOT_NUMBER] at h
                    | some pb =>
                      cases hps : storeGetState c pb.message.stateRoot with
                      | none =>
                        simp [h0, h1, h2, h3, h4, hcs, h5, h6, hsb, hps,
                          MAXIMUM_BLOCK_SLOT_NUMBER] at h
                      | some parentState =>
                        cases hcu : catchupLoop env pb.message.stateRoot
                            (b.message.slot - parentState.slot) true parentState [] with
                        | error e =>
                          simp [h0, h1, h2, h3, h4, hcs, h5, h6, hsb, hps, hcu,
                            MAXIMUM_BLOCK_SLOT_NUMBER] at h
                        | ok pr =>
                          obtain ⟨st0, inter⟩ := pr
                          by_cases hbp : env.buildCommittees st0 RelativeEpoch.Previous = true
                          · by_cases hbc : env.buildCommittees st0 RelativeEpoch.Current = true
                            · cases hpb : env.perBlockProcessing st0 b
                                  (some (env.blockRootOf b.message))
                                  BlockSignatureStrategy.VerifyBulk with
                              | error er =>
                                cases er with
                                | beaconStateError e =>
                                  simp [h0, h1, h2, h3, h4, hcs, h5, h6, hsb, hps, hcu,
                                    hbp, hbc, hpb, MAXIMUM_BLOCK_SLOT_NUMBER] at h
                                | other e =>
                                  simp [h0, h1, h2, h3, h4, hcs, h5, h6, hsb, hps, hcu,
                                    hbp, hbc, hpb, MAXIMUM_BLOCK_SLOT_NUMBER] at h
                              | ok post =>
                                by_cases hsr : b.message.stateRoot = env.treeHash post
                                · by_cases h7 : epochOfSlot env post.slot + 1 ≥ epochOfSlot env ps
                                  all_goals by_cases h8 : epochOfSlot env pb.message.slot = epochOfSlot env post.slot
                                  all_goals simp [h0, h1, h2, h3, h4, hcs, h5, h6, hsb, hps, hcu,
                                    hbp, hbc, hpb, hsr, h7, h8, MAXIMUM_BLOCK_SLOT_NUMBER] at h
                                  all_goals try
                                    (by_cases h9 : post.slot = epochStartSlot env (epochOfSlot env post.slot)
                                     · rw [if_pos h9] at h
                                       simp at h
                                     · rw [if_neg h9] at h
                                       cases hgr : getBlockRoot post (epochStartSlot env (epochOfSlot env post.slot)) with
                                       | none =>
                                         rw [hgr] at h
                                         simp at h
                                       | some tr =>
                                         rw [hgr] at h
                                         simp at h)
                                · simp [h0, h1, h2, h3, h4, hcs, h5, h6, hsb, hps, hcu,
                                    hbp, hbc, hpb, hsr, MAXIMUM_BLOCK_SLOT_NUMBER] at h
                                  obtain ⟨hc', hb, hl⟩ := h
                                  subst hc'
                                  subst hb
                                  subst hl
                                  exact ⟨rfl, rfl, fun hh => hsr hh⟩
                            · simp [h0, h1, h2, h3, h4, hcs, h5, h6, hsb, hps, hcu,
                                hbp, hbc, MAXIMUM_BLOCK_SLOT_NUMBER] at h
                          · simp [h0, h1, h2, h3, h4, hcs, h5, h6, hsb, hps, hcu,
                              hbp, MAXIMUM_BLOCK_SLOT_NUMBER] at h
          · simp [h0, h1, h2, h3, MAXIMUM_BLOCK_SLOT_NUMBER] at h

def parentBlockC1 : SignedBeaconBlock := mkSigned (mkBlock 1 0 1001)

def parentStateC1 : BeaconState := mkState0 1 0

def chainC1 : ChainState :=
  { forkChoice := [(2001, 1, 1001)], forkChoiceAtts := [],
    storeBlocks := [(2001, parentBlockC1)], storeStates := [(1001, parentStateC1)],
    genesisBlockRoot := 999,
    head := mkHead parentBlockC1 2001 parentStateC1 1001,
    currentSlot := some 2, shufflingCache := [], pubkeyCacheLen := 0,
    headTracker := [(2001, 1)], opPool := [], eth1Connected := true,
    events := [], writeLog := [] }

def blockC1 : SignedBeaconBlock := mkSigned (mkBlock 2 2001 1002)

def blockC1bad : SignedBeaconBlock := mkSigned (mkBlock 2 2001 555)

/-- Witness for C1: a concrete import at slot 2 on top of a slot-1 parent is
`Processed` and satisfies the postconditions, and the same block with a wrong
state root yields `StateRootMismatch` with the chain unchanged. -/
theorem C1_accepted_block_invariants_witness :
    (containsBlock (process_block_internal baseEnv chainC1 blockC1).1 2002 = true ∧
      storeGetBlock (process_block_internal baseEnv chainC1 blockC1).1 2002 = some blockC1 ∧
      ∃ post, storeGetState (process_block_internal baseEnv chainC1 blockC1).1
          blockC1.message.stateRoot = some post ∧
        baseEnv.treeHash post = blockC1.message.stateRoot) ∧
    (chainC1 = chainC1 ∧ (555 : Nat) = blockC1bad.message.stateRoot ∧ (555 : Nat) ≠ 1002) := by
  constructor
  · exact (C1_accepted_block_invariants baseEnv chainC1 blockC1).1
      (process_block_internal baseEnv chainC1 blockC1).1 2002 (by decide)
  · exact (C1_accepted_block_invariants baseEnv chainC1 blockC1bad).2
      chainC1 555 1002 (by decide)

/-! ## C4: the finalized epoch of the canonical head never decreases -/

theorem persist_preserves_head (c : ChainState) :
    (persist_head_and_fork_choice c).head = c.head := rfl

theorem after_finalization_preserves_head (env : Env) (c : ChainState)
    (e : Nat) (r : Nat) :
    (after_finalization env c e r).1.head = c.head := by
  unfold after_finalization
  split
  · rfl
  · dsimp only
    split
    · rfl
    · split
      · rfl
      · rfl

/-- Claim C4: the finalized epoch of the canonical head is monotonically
non-decreasing across any execution of `fork_choice`; and whenever
`fork_choice` elects a new head block whose state's finalized epoch is less
than the current head's finalized epoch, it fails with
`RevertedFinalizedEpoch` and the chain is unchanged (no head swap, no
`BeaconHeadChanged` event, no persistence write). -/
theorem C4_finalized_epoch_monotone (env : Env)
    (findHead : ChainState → Except BeaconChainError Nat) (c : ChainState) :
    c.head.beaconState.finalizedCheckpoint.epoch ≤
      (fork_choice env findHead c).1.head.beaconState.finalizedCheckpoint.epoch ∧
    (∀ root blk st, findHead c = Except.ok root →
      root ≠ c.head.beaconBlockRoot →
      storeGetBlock c root = some blk →
      storeGetState c blk.message.stateRoot = some st →
      st.finalizedCheckpoint.epoch < c.head.beaconState.finalizedCheckpoint.epoch →
      fork_choice env findHead c =
        (c, Except.error (BeaconChainError.RevertedFinalizedEpoch
          c.head.beaconState.finalizedCheckpoint.epoch st.finalizedCheckpoint.epoch))) := by
  constructor
  · unfold fork_choice
    cases hf : findHead c with
    | error e => simp
    | ok root =>
      by_cases hr : root = c.head.beaconBlockRoot
      · simp [hr]
      · cases hsb : storeGetBlock c root with
        | none => simp [hr, hsb]
        | some blk =>
          cases hss : storeGetState c blk.message.stateRoot with
          | none => simp [hr, hsb, hss]
          | some st =>
            by_cases hlt : st.finalizedCheckpoint.epoch <
                c.head.beaconState.finalizedCheckpoint.epoch
            · simp [hr, hsb, hss, hlt]
            · by_cases hbc : env.buildAllCaches st = true
              · by_cases hpp : epochOfSlot env c.head.beaconBlock.message.slot <
                    epochOfSlot env blk.message.slot
                all_goals by_cases hne : st.finalizedCheckpoint.epoch =
                    c.head.beaconState.finalizedCheckpoint.epoch
                all_goals try simp [hr, hsb, hss, hlt, hbc, hpp, hne,
                  after_finalization_preserves_head, persist_preserves_head]
                all_goals try (split <;> simp [persist_preserves_head])
                all_goals exact le_of_not_lt hlt
              · simp [hr, hsb, hss, hlt, hbc]
  · intro root blk st hf hr hsb hss hlt
    unfold fork_choice
    simp [hf, hr, hsb, hss, hlt]

def blockC4 : SignedBeaconBlock := mkSigned (mkBlock 3 0 1003)

def stateC4 : BeaconState := mkState0 3 3

def chainC4 : ChainState :=
  { forkChoice := [], forkChoiceAtts := [], storeBlocks := [(7, blockC4)],
    storeStates := [(1003, stateC4)], genesisBlockRoot := 999,
    head := mkHead (mkSigned (mkBlock 40 0 0)) 10 (mkState0 40 5) 0,
    currentSlot := some 100, shufflingCache := [], pubkeyCacheLen := 0,
    headTracker := [], opPool := [], eth1Connected := true, events := [],
    writeLog := [] }

/-- Witness for C4: a head finalized at epoch 5 refuses a newly elected head
finalized at epoch 3, leaving the chain untouched. -/
theorem C4_finalized_epoch_monotone_witness :
    fork_choice baseEnv (fun _ => Except.ok 7) chainC4 =
      (chainC4, Except.error (BeaconChainError.RevertedFinalizedEpoch 5 3)) :=
  (C4_finalized_epoch_monotone baseEnv (fun _ => Except.ok 7) chainC4).2
    7 blockC4 stateC4 rfl (by decide) (by decide) (by decide) (by decide)

/-! ## C5: resubmitting a block already in fork choice -/

def genesisBlockC5 : SignedBeaconBlock := mkSigned (mkBlock 0 0 0)

def chainC5 : ChainState :=
  { forkChoice := [(2000, 0, 0)], forkChoiceAtts := [], storeBlocks := [],
    storeStates := [], genesisBlockRoot := 2000,
    head := mkHead genesisBlockC5 2000 (mkState0 0 0) 0,
    currentSlot := some 5, shufflingCache := [], pubkeyCacheLen := 0,
    headTracker := [], opPool := [], eth1Connected := true, events := [],
    writeLog := [] }

/-- Counterexample to claim C5 as stated: the genesis block's root is
contained in fork choice, yet resubmitting it returns `GenesisBlock`, not
`BlockIsAlreadyKnown` — the earlier classified checks take precedence over
the already-known check. -/
theorem C5_counterexample :
    containsBlock chainC5 (baseEnv.blockRootOf genesisBlockC5.message) = true ∧
    process_block_internal baseEnv chainC5 genesisBlockC5 =
      (chainC5, Except.ok BlockProcessingOutcome.GenesisBlock) ∧
    (process_block_internal baseEnv chainC5 genesisBlockC5).2 ≠
      Except.ok BlockProcessingOutcome.BlockIsAlreadyKnown := by
  refine ⟨by decide, by decide, by decide⟩

/-- Claim C5 (amended): for every block whose root is already contained in
fork choice and which none of the earlier classified checks rejects (slot
nonzero, below `2^32`, beyond the finalized slot, parent known to fork
choice, canonical root differing from the genesis block root, slot not in
the future), a second submission to `process_block` returns
`BlockIsAlreadyKnown` and performs no state mutation: the chain — store,
fork choice, head tracker, shuffling cache, pubkey cache and canonical head
snapshot — is returned unchanged. -/
theorem C5_already_known_idempotent (env : Env) (c : ChainState)
    (b : SignedBeaconBlock)
    (h1 : containsBlock c (env.blockRootOf b.message) = true)
    (h2 : b.message.slot ≠ 0)
    (h3 : b.message.slot < 4294967296)
    (h4 : epochStartSlot env c.head.beaconState.finalizedCheckpoint.epoch < b.message.slot)
    (h5 : containsBlock c b.message.parentRoot = true)
    (h6 : env.blockRootOf b.message ≠ c.genesisBlockRoot)
    (ps : Nat) (h7 : c.currentSlot = some ps) (h8 : b.message.slot ≤ ps) :
    process_block_internal env c b =
      (c, Except.ok BlockProcessingOutcome.BlockIsAlreadyKnown) := by
  unfold process_block_internal
  simp [h1, h2, h3, h5, h6, h7, MAXIMUM_BLOCK_SLOT_NUMBER,
    Nat.not_le.mpr h3, Nat.not_le.mpr h4, Nat.not_lt.mpr h8]

def chainC5b : ChainState :=
  { forkChoice := [(2002, 2, 1002), (2001, 1, 1001)], forkChoiceAtts := [],
    storeBlocks := [(2002, blockC1), (2001, parentBlockC1)],
    storeStates := [(1002, mkState0 2 0), (1001, parentStateC1)],
    genesisBlockRoot := 999,
    head := mkHead blockC1 2002 (mkState0 2 0) 1002,
    currentSlot := some 2, shufflingCache := [], pubkeyCacheLen := 0,
    headTracker := [(2002, 2)], opPool := [], eth1Connected := true,
    events := [], writeLog := [] }

/-- Witness for the amended C5: resubmitting the already-imported slot-2
block returns `BlockIsAlreadyKnown` with the chain unchanged. -/
theorem C5_already_known_idempotent_witness :
    process_block_internal baseEnv chainC5b blockC1 =
      (chainC5b, Except.ok BlockProcessingOutcome.BlockIsAlreadyKnown) :=
  C5_already_known_idempotent baseEnv chainC5b blockC1 (by decide) (by decide)
    (by decide) (by decide) (by decide) (by decide) 2 (by decide) (by decide)

/-! ## C9: persistence ordering — fork choice first, then head -/

/-- Claim C9: every execution of `persist_head_and_fork_choice` first reads
the canonical head block root, then writes the fork-choice snapshot, and
only afterwards writes the beacon-chain head snapshot: the write log grows
by exactly the fork-choice write followed by the head write (whose recorded
root is the head root at entry), nothing else changes, and whenever the head
root is in fork choice the persisted head root is contained in the persisted
fork-choice snapshot. -/
theorem C9_persist_fork_choice_before_head (c : ChainState) :
    (persist_head_and_fork_choice c).writeLog =
      c.writeLog ++ [StoreWrite.forkChoiceWrite c.forkChoice,
        StoreWrite.headWrite
          { canonicalHeadBlockRoot := c.head.beaconBlockRoot,
            genesisBlockRoot := c.genesisBlockRoot,
            sszHeadTracker := c.headTracker }] ∧
    { persist_head_and_fork_choice c with writeLog := c.writeLog } = c ∧
    (containsBlock c c.head.beaconBlockRoot = true →
      c.forkChoice.any (fun e => e.1 == c.head.beaconBlockRoot) = true) := by
  refine ⟨?_, rfl, fun h => h⟩
  simp [persist_head_and_fork_choice]

/-- Witness for C9 on a concrete chain whose head is in fork choice. -/
theorem C9_persist_fork_choice_before_head_witness :
    (persist_head_and_fork_choice chainC5b).writeLog =
      [StoreWrite.forkChoiceWrite chainC5b.forkChoice,
        StoreWrite.headWrite
          { canonicalHeadBlockRoot := 2002, genesisBlockRoot := 999,
            sszHeadTracker := [(2002, 2)] }] ∧
    chainC5b.forkChoice.any (fun e => e.1 == (2002 : Nat)) = true := by
  constructor
  · have h := (C9_persist_fork_choice_before_head chainC5b).1
    simpa using h
  · exact (C9_persist_fork_choice_before_head chainC5b).2.2 (by decide)

/-! ## C10: block production requires an eth1 chain -/

/-- Claim C10: with no eth1 chain attached, `produce_block_on_state` (and
hence `produce_block`, once its `state_at_slot` call has produced a state)
fails with `NoEth1ChainConnection` before advancing the state or assembling
a block. -/
theorem C10_no_eth1_no_block_production (env : Env) (c : ChainState)
    (state0 : BeaconState) (slot : Nat) (randao : Nat)
    (h : c.eth1Connected = false) :
    produce_signed_block_on_state env c state0 slot randao =
      Except.error BlockProductionError.NoEth1ChainConnection ∧
    produce_block_on_state env c state0 slot randao =
      Except.error BlockProductionError.NoEth1ChainConnection ∧
    (∀ st, state_at_slot env c (slot - 1) StateSkipConfig.WithStateRoots =
        Except.ok st →
      produce_block env c randao slot =
        Except.error BlockProductionError.NoEth1ChainConnection) := by
  refine ⟨?_, ?_, ?_⟩
  · unfold produce_signed_block_on_state
    simp [h]
  · unfold produce_block_on_state produce_signed_block_on_state
    simp [h, Except.map]
  · intro st hst
    unfold produce_block
    rw [hst]
    unfold produce_block_on_state produce_signed_block_on_state
    simp [h, Except.map]

def chainC10 : ChainState := { chainC2 with eth1Connected := false }

/-- Witness for C10: production on a chain without an eth1 connection, at a
slot one past the head (so `state_at_slot` succeeds for `produce_block`). -/
theorem C10_no_eth1_no_block_production_witness :
    produce_block_on_state baseEnv chainC10 (mkState0 8 1) 9 0 =
      Except.error BlockProductionError.NoEth1ChainConnection ∧
    produce_block baseEnv chainC10 0 9 =
      Except.error BlockProductionError.NoEth1ChainConnection := by
  constructor
  · exact (C10_no_eth1_no_block_production baseEnv chainC10 (mkState0 8 1) 9 0 rfl).2.1
  · exact (C10_no_eth1_no_block_production baseEnv chainC10 (mkState0 8 1) 9 0 rfl).2.2
      chainC10.head.beaconState (by decide)

/-! ## C8: shape of a produced block -/

/-- `per_slot_processing` advances the slot by exactly one (a property of
the external state-transition function that the source's loops rely on). -/
def SlotAdvancing (env : Env) : Prop :=
  ∀ s r s2, env.perSlotProcessing s r = Except.ok s2 → s2.slot = s.slot + 1

theorem produceAdvanceLoop_slot (env : Env) (target : Nat)
    (hadv : SlotAdvancing env) (fuel : Nat) :
    ∀ s st, s.slot ≤ target →
      produceAdvanceLoop env target fuel s = Except.ok st → st.slot = target := by
  induction fuel with
  | zero =>
    intro s st hle h
    unfold produceAdvanceLoop at h
    by_cases hl : s.slot < target
    · simp [hl] at h
    · simp [hl] at h
      subst h
      exact le_antisymm hle (le_of_not_lt hl)
  | succ n ih =>
    intro s st hle h
    unfold produceAdvanceLoop at h
    by_cases hl : s.slot < target
    · simp [hl] at h
      cases hps : env.perSlotProcessing s none with
      | error e => simp [hps] at h
      | ok s2 =>
        simp [hps] at h
        have h2 := hadv s none s2 hps
        refine ih s2 st ?_ h
        rw [h2]
        exact hl
    · simp [hl] at h
      subst h
      exact le_antisymm hle (le_of_not_lt hl)

/-- Claim C8: every `(block, post_state)` pair returned by
`produce_block_on_state` on an input state with slot at most
`produce_at_slot` satisfies: the block's slot equals `produce_at_slot`, its
state root equals the tree-hash root of the post-state, the assembled signed
container carries the empty signature (the returned block is its bare
unsigned message), and the body's graffiti equals the fixed 32-byte
`GRAFFITI` constant. -/
theorem C8_produced_block_shape (env : Env) (c : ChainState)
    (state0 : BeaconState) (produceAtSlot : Nat) (randao : Nat)
    (hadv : SlotAdvancing env) (hle : state0.slot ≤ produceAtSlot) :
    ∀ sb post, produce_signed_block_on_state env c state0 produceAtSlot randao =
        Except.ok (sb, post) →
      sb.message.slot = produceAtSlot ∧
      sb.message.stateRoot = env.treeHash post ∧
      sb.signature = emptySignature ∧
      sb.message.body.graffiti = graffitiBytes ∧
      graffitiBytes.length = 32 ∧
      produce_block_on_state env c state0 produceAtSlot randao =
        Except.ok (sb.message, post) := by
  intro sb post h
  have hmap : produce_block_on_state env c state0 produceAtSlot randao =
      Except.ok (sb.message, post) := by
    unfold produce_block_on_state
    rw [h]
    rfl
  unfold produce_signed_block_on_state at h
  by_cases he : c.eth1Connected = true
  · simp only [he, Bool.not_true, Bool.false_eq_true, if_false] at h
    cases hal : produceAdvanceLoop env produceAtSlot (produceAtSlot - state0.slot) state0 with
    | error e => simp [hal] at h
    | ok state1 =>
      have hs1 : state1.slot = produceAtSlot :=
        produceAdvanceLoop_slot env produceAtSlot hadv _ state0 state1 hle hal
      simp only [hal] at h
      by_cases hbc : env.buildCommittees state1 RelativeEpoch.Current = true
      · simp only [hbc, Bool.not_true, Bool.false_eq_true, if_false] at h
        cases hpr : (if state1.slot > 0 then
            match getBlockRoot state1 (state1.slot - 1) with
            | none => Except.error BlockProductionError.UnableToGetBlockRootFromState
            | some r => Except.ok r
          else Except.ok state1.latestBlockHeaderRoot) with
        | error e => simp [hpr] at h
        | ok pr =>
          simp only [hpr] at h
          cases he1 : env.eth1DataFor state1 with
          | error e => simp [he1] at h
          | ok d1 =>
            simp only [he1] at h
            cases hdp : env.depositsFor state1 d1 with
            | error e => simp [hdp] at h
            | ok deps =>
              simp only [hdp] at h
              cases hga : env.getAttestations state1 with
              | error e => simp [hga] at h
              | ok atts =>
                simp only [hga] at h
                split at h
                · simp at h
                · simp at h
                · next state2 hpb =>
                  simp at h
                  obtain ⟨hsb, hpost⟩ := h
                  subst hpost
                  rw [← hsb]
                  refine ⟨hs1, rfl, rfl, rfl, by decide, ?_⟩
                  rw [← hsb] at hmap
                  exact hmap
      · simp [hbc] at h
  · simp [he] at h

def stateC8 : BeaconState := { mkState0 3 0 with blockRoots := [(2, 42)] }

def sbC8 : SignedBeaconBlock :=
  { message :=
      { slot := 3, parentRoot := 42, stateRoot := 1003,
        body :=
          { randaoReveal := 7, eth1Data := 0, graffiti := graffitiBytes,
            proposerSlashings := [], attesterSlashings := [], attestations := [],
            deposits := [], voluntaryExits := [] } },
    signature := 0 }

/-- Witness for C8: a concrete production at slot 3. -/
theorem C8_produced_block_shape_witness :
    sbC8.message.slot = 3 ∧
    sbC8.message.stateRoot = baseEnv.treeHash stateC8 ∧
    sbC8.signature = emptySignature ∧
    sbC8.message.body.graffiti = graffitiBytes ∧
    graffitiBytes.length = 32 ∧
    produce_block_on_state baseEnv chainC2 stateC8 3 7 =
      Except.ok (sbC8.message, stateC8) :=
  C8_produced_block_shape baseEnv chainC2 stateC8 3 7
    (fun s r s2 hh => by simp [baseEnv] at hh; rw [← hh])
    (by decide) sbC8 stateC8 (by decide)

/-! ## C7: the three-way case split of state_at_slot -/

def skipRootOf (config : StateSkipConfig) : Option Nat :=
  match config with
  | StateSkipConfig.WithStateRoots => none
  | StateSkipConfig.WithoutStateRoots => some 0

def specAdvance (env : Env) : Nat → BeaconState → Option Nat → Except Nat BeaconState
  | 0, st, _ => Except.ok st
  | n + 1, st, r =>
    match env.perSlotProcessing st r with
    | Except.error e => Except.error e
    | Except.ok st2 => specAdvance env n st2 r

theorem stateSkipLoop_no_budget (env : Env) (start target : Nat)
    (hadv : SlotAdvancing env)
    (hnb : ∀ k, ¬ env.taskStart + env.millisecondsPerSlot < env.nowAt k) :
    ∀ fuel k st r, target ≤ st.slot + fuel →
      stateSkipLoop env start target fuel k st r =
        match specAdvance env (target - st.slot) st r with
        | Except.error _ => Except.error (BeaconChainError.NoStateForSlot target)
        | Except.ok st2 => Except.ok st2 := by
  intro fuel
  induction fuel with
  | zero =>
    intro k st r hle
    have hl : ¬ st.slot < target := by omega
    have hz : target - st.slot = 0 := by omega
    unfold stateSkipLoop
    rw [if_neg hl, hz]
    rfl
  | succ n ih =>
    intro k st r hle
    unfold stateSkipLoop
    by_cases hl : st.slot < target
    · rw [if_pos hl, if_neg (hnb k)]
      cases hps : env.perSlotProcessing st r with
      | error e =>
        have hd : target - st.slot = (target - (st.slot + 1)) + 1 := by omega
        rw [hd]
        simp [specAdvance, hps]
      | ok st2 =>
        have h2 := hadv st r st2 hps
        have hd : target - st.slot = (target - st2.slot) + 1 := by omega
        rw [hd]
        simp only [specAdvance, hps]
        exact ih (k + 1) st2 r (by omega)
    · have hz : target - st.slot = 0 := by omega
      rw [if_neg hl, hz]
      rfl

theorem stateSkipLoop_budget_exceeded (env : Env) (start target : Nat)
    (hadv : SlotAdvancing env)
    (hne : ∀ s r, ∃ s2, env.perSlotProcessing s r = Except.ok s2) :
    ∀ fuel k st r, target ≤ st.slot + fuel →
      (∃ j, k ≤ j ∧ j < k + (target - st.slot) ∧
        env.taskStart + env.millisecondsPerSlot < env.nowAt j) →
      stateSkipLoop env start target fuel k st r =
        Except.error (BeaconChainError.StateSkipTooLarge start target
          env.millisecondsPerSlot) := by
  intro fuel
  induction fuel with
  | zero =>
    intro k st r hle hex
    obtain ⟨j, hj1, hj2, hj3⟩ := hex
    omega
  | succ n ih =>
    intro k st r hle hex
    obtain ⟨j, hj1, hj2, hj3⟩ := hex
    have hl : st.slot < target := by omega
    unfold stateSkipLoop
    rw [if_pos hl]
    by_cases hk : env.taskStart + env.millisecondsPerSlot < env.nowAt k
    · rw [if_pos hk]
    · rw [if_neg hk]
      obtain ⟨s2, hps⟩ := hne st r
      have h2 := hadv st r s2 hps
      simp only [hps]
      refine ih (k + 1) s2 r (by omega) ⟨j, ?_, by omega, hj3⟩
      rcases Nat.eq_or_lt_of_le hj1 with he | hlt
      · exact absurd (he ▸ hj3) hk
      · exact hlt

theorem find?_takeWhile_sorted (slot : Nat) :
    ∀ l : List (Nat × Nat), l.Pairwise (fun a b => b.2 < a.2) →
      (l.takeWhile (fun p => decide (p.2 ≥ slot))).find? (fun p => p.2 == slot) =
        l.find? (fun p => p.2 == slot) := by
  intro l
  induction l with
  | nil => intro _; rfl
  | cons a t ih =>
    intro hp
    rw [List.pairwise_cons] at hp
    obtain ⟨ha, hpt⟩ := hp
    by_cases hge : a.2 ≥ slot
    · rw [List.takeWhile_cons_of_pos (by simpa using hge)]
      by_cases heq : a.2 = slot
      · simp [List.find?_cons, heq]
      · rw [List.find?_cons_of_neg _ (by simpa using heq),
          List.find?_cons_of_neg _ (by simpa using heq)]
        exact ih hpt
    · rw [List.takeWhile_cons_of_neg (by simpa using hge)]
      have hlt : a.2 < slot := by omega
      rw [List.find?_cons_of_neg _ (by simp; omega), List.find?_nil]
      symm
      rw [List.find?_eq_none]
      intro x hx
      have hxa := ha x hx
      simp
      omega

theorem revStateRootIter_sorted (c : ChainState) :
    (revStateRootIter c).Pairwise (fun a b => b.2 < a.2) := by
  unfold revStateRootIter
  rw [List.pairwise_cons]
  constructor
  · intro p hp
    rw [List.mem_filterMap] at hp
    obtain ⟨s, hs, hf⟩ := hp
    rw [List.mem_reverse, List.mem_range] at hs
    cases hfind : c.head.beaconState.stateRoots.find? (fun e => e.1 == s) with
    | none => rw [hfind] at hf; simp at hf
    | some e =>
      rw [hfind] at hf
      simp at hf
      rw [← hf]
      exact hs
  · rw [List.pairwise_filterMap, List.pairwise_reverse]
    refine (List.pairwise_lt_range c.head.beaconState.slot).imp ?_
    intro a b hab x hx y hy
    cases hfa : c.head.beaconState.stateRoots.find? (fun e => e.1 == b) with
    | none => rw [hfa] at hx; simp at hx
    | some ea =>
      rw [hfa] at hx
      simp at hx
      cases hfb : c.head.beaconState.stateRoots.find? (fun e => e.1 == a) with
      | none => rw [hfb] at hy; simp at hy
      | some eb =>
        rw [hfb] at hy
        simp at hy
        rw [← hx, ← hy]
        exact hab

/-- Claim C7: `state_at_slot` behaves as a three-way case split on the head
state's slot.  Equal: it returns the head state.  Greater: it returns the
head state advanced by repeated `per_slot_processing` to the requested slot
(substituting zero state roots under the fast config), failing with
`StateSkipTooLarge` whenever the wall-clock budget of
`milliseconds_per_slot` is exceeded during the skip.  Less: it returns the
stored state whose root the head's reverse state-root iterator yields at
that slot, failing with `NoStateForSlot` when no such root is found or the
store lacks the state. -/
theorem C7_state_at_slot_cases (env : Env) (c : ChainState) (slot : Nat) (config : StateSkipConfig) :
    (slot = c.head.beaconState.slot →
      state_at_slot env c slot config = Except.ok c.head.beaconState) ∧
    (SlotAdvancing env → c.head.beaconState.slot < slot →
      (∀ k, ¬ env.taskStart + env.millisecondsPerSlot < env.nowAt k) →
      state_at_slot env c slot config =
        match specAdvance env (slot - c.head.beaconState.slot) c.head.beaconState
            (skipRootOf config) with
        | Except.error _ => Except.error (BeaconChainError.NoStateForSlot slot)
        | Except.ok st => Except.ok st) ∧
    (SlotAdvancing env → c.head.beaconState.slot < slot →
      (∀ s r, ∃ s2, env.perSlotProcessing s r = Except.ok s2) →
      ∀ K, env.taskStart + env.millisecondsPerSlot < env.nowAt K →
        K < slot - c.head.beaconState.slot →
        state_at_slot env c slot config =
          Except.error (BeaconChainError.StateSkipTooLarge c.head.beaconState.slot
            slot env.millisecondsPerSlot)) ∧
    (slot < c.head.beaconState.slot →
      state_at_slot env c slot config =
        match (revStateRootIter c).find? (fun p => p.2 == slot) with
        | none => Except.error (BeaconChainError.NoStateForSlot slot)
        | some p =>
          match storeGetState c p.1 with
          | none => Except.error (BeaconChainError.NoStateForSlot slot)
          | some st => Except.ok st) := by
  refine ⟨?_, ?_, ?_, ?_⟩
  · intro h
    unfold state_at_slot
    simp [h]
  · intro hadv hgt hnb
    unfold state_at_slot
    rw [if_neg (by simp; omega), if_pos hgt,
      stateSkipLoop_no_budget env c.head.beaconState.slot slot hadv hnb
        (slot - c.head.beaconState.slot) 0 c.head.beaconState _ (by omega)]
    cases config <;> rfl
  · intro hadv hgt hne K hK hKlt
    unfold state_at_slot
    rw [if_neg (by simp; omega), if_pos hgt,
      stateSkipLoop_budget_exceeded env c.head.beaconState.slot slot hadv hne
        (slot - c.head.beaconState.slot) 0 c.head.beaconState _ (by omega)
        ⟨K, by omega, by omega, hK⟩]
  · intro hlt
    unfold state_at_slot
    rw [if_neg (by simp; omega), if_neg (by omega),
      find?_takeWhile_sorted slot _ (revStateRootIter_sorted c)]
    cases hf : (revStateRootIter c).find? (fun p => p.2 == slot) with
    | none => rfl
    | some p =>
      obtain ⟨r0, s0⟩ := p
      cases storeGetState c r0 <;> rfl

def envLate : Env := { baseEnv with nowAt := fun _ => 99999 }

/-- Witness for C7: the head state returned at its own slot; a two-slot
forward skip; a budget overrun producing `StateSkipTooLarge`; and a
backwards request with no matching state root producing `NoStateForSlot`. -/
theorem C7_state_at_slot_cases_witness :
    state_at_slot baseEnv chainC1 1 StateSkipConfig.WithStateRoots =
      Except.ok parentStateC1 ∧
    state_at_slot baseEnv chainC1 3 StateSkipConfig.WithStateRoots =
      Except.ok { parentStateC1 with slot := 3 } ∧
    state_at_slot envLate chainC1 3 StateSkipConfig.WithStateRoots =
      Except.error (BeaconChainError.StateSkipTooLarge 1 3 12000) ∧
    state_at_slot baseEnv chainC1 0 StateSkipConfig.WithStateRoots =
      Except.error (BeaconChainError.NoStateForSlot 0) := by
  refine ⟨?_, ?_, ?_, ?_⟩
  · exact (C7_state_at_slot_cases baseEnv chainC1 1 StateSkipConfig.WithStateRoots).1 rfl
  · have h := (C7_state_at_slot_cases baseEnv chainC1 3 StateSkipConfig.WithStateRoots).2.1
      (fun s r s2 hh => by simp [baseEnv] at hh; rw [← hh]) (by decide)
      (fun k => by show ¬ (0 + 12000 < 0); decide)
    rw [h]
    decide
  · exact (C7_state_at_slot_cases envLate chainC1 3 StateSkipConfig.WithStateRoots).2.2.1
      (fun s r s2 hh => by simp [envLate, baseEnv] at hh; rw [← hh])
      (by decide) (fun s r => ⟨{ s with slot := s.slot + 1 }, rfl⟩) 0 (by decide) (by decide)
  · have h := (C7_state_at_slot_cases baseEnv chainC1 0
      StateSkipConfig.WithStateRoots).2.2.2 (by decide)
    rw [h]
    decide

theorem fromScratchCache_congr (env : Env) (x y : ChainState)
    (hfc : y.forkChoice = x.forkChoice) (hss : y.storeStates = x.storeStates) :
    ∀ e r, fromScratchCache env y e r = fromScratchCache env x e r := by
  intro e r
  unfold fromScratchCache fcLookup committeeCacheFromState storeGetState
  rw [hfc, hss]

theorem cacheCoherentB_congr (env : Env) (x y : ChainState)
    (h : cacheCoherentB env x = true)
    (h1 : y.shufflingCache = x.shufflingCache) (h2 : y.forkChoice = x.forkChoice)
    (h3 : y.storeStates = x.storeStates) : cacheCoherentB env y = true := by
  unfold cacheCoherentB at h ⊢
  rw [h1]
  refine List.all_eq_true.mpr ?_
  intro p hp
  rw [fromScratchCache_congr env x y h2 h3]
  exact List.all_eq_true.mp h p hp

theorem finishAttestation_fields (env : Env) (x : ChainState) (a : Attestation)
    (cc : Nat) :
    (finishAttestation env x a cc).1.shufflingCache = x.shufflingCache ∧
    (finishAttestation env x a cc).1.forkChoice = x.forkChoice ∧
    (finishAttestation env x a cc).1.storeStates = x.storeStates := by
  unfold finishAttestation
  repeat' split
  all_goals try (refine ⟨rfl, rfl, rfl⟩)
  all_goals (dsimp only; split <;> refine ⟨rfl, rfl, rfl⟩)

theorem cacheCoherentB_insert (env : Env) (c : ChainState)
    (hc : cacheCoherentB env c = true) (e r ts tsr cc : Nat)
    (hfc : fcLookup c r = some (ts, tsr))
    (hcc : committeeCacheFromState env c e ts tsr = Except.ok cc) :
    cacheCoherentB env
      { c with shufflingCache := (e, r, cc) :: c.shufflingCache } = true := by
  unfold cacheCoherentB
  refine List.all_eq_true.mpr ?_
  intro p hp
  have hcg := fromScratchCache_congr env c
    { c with shufflingCache := (e, r, cc) :: c.shufflingCache } rfl rfl
  rw [hcg p.1 p.2.1]
  simp only [List.mem_cons] at hp
  rcases hp with hp | hp
  · subst hp
    unfold fromScratchCache
    dsimp only
    rw [hfc]
    dsimp only
    rw [hcc]
    simp [Except.toOption]
  · exact List.all_eq_true.mp hc p hp

theorem cacheCoherent_finish (env : Env) (x : ChainState) (a : Attestation)
    (cc : Nat) (h : cacheCoherentB env x = true) :
    cacheCoherentB env (finishAttestation env x a cc).1 = true := by
  have hf := finishAttestation_fields env x a cc
  exact cacheCoherentB_congr env x _ h hf.1 hf.2.1 hf.2.2

theorem attestation_preserves_coherence (env : Env) (c : ChainState)
    (a : Attestation) (hc : cacheCoherentB env c = true) :
    cacheCoherentB env (process_attestation_internal env c a).1 = true := by
  unfold process_attestation_internal
  by_cases b0 : a.aggregationBits.count true = 0
  · simpa [b0] using hc
  · simp only [b0]
    cases hcs : c.currentSlot with
    | none => simpa [b0, hcs] using hc
    | some nowSlot =>
      by_cases b1 : epochOfSlot env nowSlot < epochOfSlot env a.data.slot
      · simpa [b0, hcs, b1] using hc
      · by_cases b2 : epochOfSlot env a.data.slot + 1 < epochOfSlot env nowSlot
        · simpa [b0, hcs, b1, b2] using hc
        · by_cases b3 : a.data.target.epoch = epochOfSlot env a.data.slot
          · cases hft : fcLookup c a.data.target.root with
            | none => simpa [b0, hcs, b1, b2, b3, hft] using hc
            | some p =>
              obtain ⟨ts, tsr⟩ := p
              cases hfb : fcLookup c a.data.beaconBlockRoot with
              | none => simpa [b0, hcs, b1, b2, b3, hft, hfb] using hc
              | some q =>
                obtain ⟨bs, qr⟩ := q
                by_cases b4 : a.data.slot < bs
                · simpa [b0, hcs, b1, b2, b3, hft, hfb, b4] using hc
                · simp only [b0, hcs, b1, b2, b3, hft, hfb, b4]
                  cases hsl : shufflingLookup c (epochOfSlot env a.data.slot)
                      a.data.target.root with
                  | some cc =>
                    simp [b0, hcs, b1, b2, b3, hft, hfb, b4, hsl]
                    exact cacheCoherent_finish env c a cc hc
                  | none =>
                    simp only [b0, hcs, b1, b2, b3, hft, hfb, b4, hsl]
                    cases hcf : committeeCacheFromState env c
                        (epochOfSlot env a.data.slot) ts tsr with
                    | error e => simpa [b0, hcs, b1, b2, b3, hft, hfb, b4, hsl, hcf] using hc
                    | ok cc =>
                      simp [b0, hcs, b1, b2, b3, hft, hfb, b4, hsl, hcf]
                      refine cacheCoherent_finish env _ a cc ?_
                      refine cacheCoherentB_congr env _ _
                        (cacheCoherentB_insert env c hc (epochOfSlot env a.data.slot)
                          a.data.target.root ts tsr cc hft hcf) rfl rfl rfl
          · simpa [b0, hcs, b1, b2, b3] using hc

theorem catchupLoop_batch_th (env : Env) (proot : Nat) :
    ∀ fuel first st batch st2 batch2,
      catchupLoop env proot fuel first st batch = Except.ok (st2, batch2) →
      (∀ p ∈ batch, p.1 = env.treeHash p.2) →
      ∀ p ∈ batch2, p.1 = env.treeHash p.2 := by
  intro fuel
  induction fuel with
  | zero =>
    intro first st batch st2 batch2 h hb
    unfold catchupLoop at h
    simp at h
    obtain ⟨h1, h2⟩ := h
    subst h2
    exact hb
  | succ n ih =>
    intro first st batch st2 batch2 h hb
    unfold catchupLoop at h
    cases hps : env.perSlotProcessing st
        (some (if first = true then proot else env.treeHash st)) with
    | error e => simp [hps] at h
    | ok s2 =>
      simp only [hps] at h
      refine ih false s2 _ st2 batch2 h ?_
      intro p hp
      cases first with
      | true =>
        simp at hp
        exact hb p hp
      | false =>
        simp at hp
        rcases hp with hp | hp
        · exact hb p hp
        · rw [hp]

theorem lookup_prepend_stable (env : Env)
    (hinj : ∀ s t, env.treeHash s = env.treeHash t → s = t)
    (pre old : List (Nat × BeaconState))
    (hpre : ∀ p ∈ pre, p.1 = env.treeHash p.2)
    (hold : ∀ p ∈ old, p.1 = env.treeHash p.2)
    (root : Nat) (s : BeaconState)
    (h : (old.find? (fun e => e.1 == root)).map (fun e => e.2) = some s) :
    ((pre ++ old).find? (fun e => e.1 == root)).map (fun e => e.2) = some s := by
  induction pre with
  | nil => simpa using h
  | cons a t ih =>
    by_cases ha : a.1 = root
    · rw [List.cons_append, List.find?_cons_of_pos _ (by simpa using ha)]
      cases hfo : old.find? (fun e => e.1 == root) with
      | none => rw [hfo] at h; simp at h
      | some q =>
        rw [hfo] at h
        simp at h
        have hq1 : q.1 = root := by
          have := List.find?_some hfo
          simpa using this
        have hqm : q ∈ old := List.mem_of_find?_eq_some hfo
        have hqth := hold q hqm
        have hath := hpre a (by simp)
        have : a.2 = q.2 := by
          refine hinj a.2 q.2 ?_
          rw [← hath, ← hqth, ha, hq1]
        simp [this, h]
    · rw [List.cons_append, List.find?_cons_of_neg _ (by simpa using ha)]
      exact ih (fun p hp => hpre p (by simp [hp]))

theorem skipToEpoch_noop (env : Env) (e : Nat) (st : BeaconState)
    (h : ¬ epochOfSlot env st.slot + 1 < e) :
    ∀ fuel, skipToEpoch env e fuel st = Except.ok st := by
  intro fuel
  cases fuel <;> simp [skipToEpoch, h]

theorem committeeCacheFromState_store_eq (env : Env) (x y : ChainState)
    (e ts tsr : Nat) (h : storeGetState y tsr = storeGetState x tsr) :
    committeeCacheFromState env y e ts tsr =
      committeeCacheFromState env x e ts tsr := by
  unfold committeeCacheFromState
  rw [h]

theorem fromScratch_stable_after_import (env : Env) (c : ChainState)
    (hinj : ∀ s t, env.treeHash s = env.treeHash t → s = t)
    (hs : storeTHB env c = true)
    (blockRoot bslot : Nat) (post : BeaconState) (inter : List (Nat × BeaconState))
    (hinterTH : ∀ p ∈ inter, p.1 = env.treeHash p.2)
    (hnotin : containsBlock c blockRoot = false)
    (c3 : ChainState)
    (hfc3 : c3.forkChoice = (blockRoot, bslot, env.treeHash post) :: c.forkChoice)
    (hss3 : c3.storeStates = (env.treeHash post, post) ::
      (inter.reverse ++ c.storeStates))
    (e r cc : Nat)
    (hold : fromScratchCache env c e r = some cc) :
    fromScratchCache env c3 e r = some cc := by
  unfold fromScratchCache at hold ⊢
  cases hfl : fcLookup c r with
  | none => rw [hfl] at hold; simp at hold
  | some p =>
    obtain ⟨ts, tsr⟩ := p
    rw [hfl] at hold
    dsimp only at hold
    have hrne : r ≠ blockRoot := by
      intro hr
      subst hr
      unfold containsBlock at hnotin
      unfold fcLookup at hfl
      cases hfind : c.forkChoice.find? (fun q => q.1 == r) with
      | none => rw [hfind] at hfl; simp at hfl
      | some q =>
        have hqm := List.mem_of_find?_eq_some hfind
        have hq := List.find?_some hfind
        have : c.forkChoice.any (fun q => q.1 == r) = true :=
          List.any_eq_true.mpr ⟨q, hqm, hq⟩
        rw [this] at hnotin
        exact Bool.true_eq_false.mp hnotin
    have hfl3 : fcLookup c3 r = some (ts, tsr) := by
      unfold fcLookup at hfl ⊢
      rw [hfc3, List.find?_cons_of_neg _ (by simpa using fun hh => hrne hh.symm)]
      exact hfl
    rw [hfl3]
    dsimp only
    cases hccs : committeeCacheFromState env c e ts tsr with
    | error er => rw [hccs] at hold; simp [Except.toOption] at hold
    | ok v =>
      rw [hccs] at hold
      unfold committeeCacheFromState at hccs
      cases hsg : storeGetState c tsr with
      | none => rw [hsg] at hccs; simp at hccs
      | some st =>
        rw [hsg] at hccs
        have hsg3 : storeGetState c3 tsr = some st := by
          unfold storeGetState at hsg ⊢
          rw [hss3]
          have hsP : ∀ p ∈ c.storeStates, p.1 = env.treeHash p.2 := by
            intro p hp
            have := List.all_eq_true.mp hs p hp
            simpa using this
          have hpre : ∀ p ∈ ((env.treeHash post, post) :: inter.reverse),
              p.1 = env.treeHash p.2 := by
            intro p hp
            simp at hp
            rcases hp with hp | hp
            · rw [hp]
            · exact hinterTH p hp
          have := lookup_prepend_stable env hinj
            ((env.treeHash post, post) :: inter.reverse) c.storeStates hpre hsP
            tsr st hsg
          simpa using this
        have hcc3 : committeeCacheFromState env c3 e ts tsr = Except.ok v := by
          unfold committeeCacheFromState
          rw [hsg3]
          exact hccs
        rw [hcc3]
        exact hold

theorem fromScratch_new_entry (env : Env) (c3 : ChainState)
    (blockRoot bslot : Nat) (post : BeaconState)
    (tailFC : List (Nat × Nat × Nat)) (tailSS : List (Nat × BeaconState))
    (hfc3 : c3.forkChoice = (blockRoot, bslot, env.treeHash post) :: tailFC)
    (hss3 : c3.storeStates = (env.treeHash post, post) :: tailSS)
    (hbuild : env.buildCommittees post RelativeEpoch.Current = true) :
    fromScratchCache env c3 (epochOfSlot env post.slot) blockRoot =
      some (env.committeeCacheOf post RelativeEpoch.Current) := by
  unfold fromScratchCache fcLookup
  rw [hfc3, List.find?_cons_of_pos _ (by simp)]
  simp only [Option.map_some']
  unfold committeeCacheFromState storeGetState
  rw [hss3, List.find?_cons_of_pos _ (by simp)]
  simp only [Option.map_some']
  rw [skipToEpoch_noop env _ post (by omega)]
  simp [relativeEpochFrom, hbuild, Except.toOption]

theorem storeTHB_after_import (env : Env) (c : ChainState)
    (hs : storeTHB env c = true) (post : BeaconState)
    (inter : List (Nat × BeaconState))
    (hinterTH : ∀ p ∈ inter, p.1 = env.treeHash p.2)
    (c3 : ChainState)
    (hss3 : c3.storeStates = (env.treeHash post, post) ::
      (inter.reverse ++ c.storeStates)) :
    storeTHB env c3 = true := by
  unfold storeTHB
  rw [hss3]
  refine List.all_eq_true.mpr ?_
  intro p hp
  simp only [List.mem_cons, List.mem_append, List.mem_reverse] at hp
  rcases hp with hp | hp | hp
  · rw [hp]
    simp
  · simp [hinterTH p hp]
  · have := List.all_eq_true.mp hs p hp
    simpa using this

theorem cacheCoherent_after_import (env : Env) (c : ChainState)
    (hinj : ∀ s t, env.treeHash s = env.treeHash t → s = t)
    (hc : cacheCoherentB env c = true) (hs : storeTHB env c = true)
    (blockRoot bslot : Nat) (post : BeaconState)
    (inter : List (Nat × BeaconState))
    (hinterTH : ∀ p ∈ inter, p.1 = env.treeHash p.2)
    (hnotin : containsBlock c blockRoot = false)
    (c3 : ChainState)
    (hfc3 : c3.forkChoice = (blockRoot, bslot, env.treeHash post) :: c.forkChoice)
    (hss3 : c3.storeStates = (env.treeHash post, post) ::
      (inter.reverse ++ c.storeStates))
    (hbuild : env.buildCommittees post RelativeEpoch.Current = true)
    (hsc3 : ∀ p ∈ c3.shufflingCache, p ∈ c.shufflingCache ∨
      (p.1 = epochOfSlot env post.slot ∧ p.2.1 = blockRoot ∧
        p.2.2 = env.committeeCacheOf post RelativeEpoch.Current) ∨
      (p ∉ c.shufflingCache ∧ p.2.1 ≠ blockRoot ∧
        fromScratchCache env c3 p.1 p.2.1 = some p.2.2)) :
    cacheCoherentB env c3 = true := by
  unfold cacheCoherentB
  refine List.all_eq_true.mpr ?_
  intro p hp
  rcases hsc3 p hp with hold | ⟨h1, h2, h3⟩ | ⟨_, _, hdone⟩
  · have holdc : fromScratchCache env c p.1 p.2.1 = some p.2.2 := by
      have := List.all_eq_true.mp hc p hold
      simpa using this
    have := fromScratch_stable_after_import env c hinj hs blockRoot bslot post
      inter hinterTH hnotin c3 hfc3 hss3 p.1 p.2.1 p.2.2 holdc
    simpa using this
  · have := fromScratch_new_entry env c3 blockRoot bslot post _ _ hfc3 hss3 hbuild
    simp [h1, h2, h3, this]
  · simp [hdone]

theorem block_preserves_coherence (env : Env) (c : ChainState)
    (b : SignedBeaconBlock)
    (hinj : ∀ s t, env.treeHash s = env.treeHash t → s = t)
    (hpb : ∀ s bb r strat s2, env.perBlockProcessing s bb r strat = Except.ok s2 →
      env.buildCommittees s2 RelativeEpoch.Current =
        env.buildCommittees s RelativeEpoch.Current)
    (hc : cacheCoherentB env c = true) (hs : storeTHB env c = true) :
    ∀ c' out, process_block_internal env c b = (c', out) →
      (∀ e r cc, (e, r, cc) ∈ c'.shufflingCache → (e, r, cc) ∉ c.shufflingCache →
        r ≠ env.blockRootOf b.message → fromScratchCache env c' e r = some cc) →
      cacheCoherentB env c' = true ∧ storeTHB env c' = true := by
  intro c' out h hhist
  unfold process_block_internal at h
  by_cases h0 : b.message.slot = 0
  · simp [h0] at h
    obtain ⟨h1, h2⟩ := h
    subst h1
    exact ⟨hc, hs⟩
  · by_cases h1 : 4294967296 ≤ b.message.slot
    · simp [h0, h1, MAXIMUM_BLOCK_SLOT_NUMBER] at h
      obtain ⟨ha, hb2⟩ := h
      subst ha
      exact ⟨hc, hs⟩
    · by_cases h2 : b.message.slot ≤ epochStartSlot env c.head.beaconState.finalizedCheckpoint.epoch
      · simp [h0, h1, h2, MAXIMUM_BLOCK_SLOT_NUMBER] at h
        obtain ⟨ha, hb2⟩ := h
        subst ha
        exact ⟨hc, hs⟩
      · by_cases h3 : containsBlock c b.message.parentRoot = true
        · by_cases h4 : env.blockRootOf b.message = c.genesisBlockRoot
          · simp [h0, h1, h2, h3, h4, MAXIMUM_BLOCK_SLOT_NUMBER] at h
            obtain ⟨ha, hb2⟩ := h
            subst ha
            exact ⟨hc, hs⟩
          · cases hcs : c.currentSlot with
            | none =>
              simp [h0, h1, h2, h3, h4, hcs, MAXIMUM_BLOCK_SLOT_NUMBER] at h
              obtain ⟨ha, hb2⟩ := h
              subst ha
              exact ⟨hc, hs⟩
            | some ps =>
              by_cases h5 : ps < b.message.slot
              · simp [h0, h1, h2, h3, h4, hcs, h5, MAXIMUM_BLOCK_SLOT_NUMBER] at h
                obtain ⟨ha, hb2⟩ := h
                subst ha
                exact ⟨hc, hs⟩
              · by_cases h6 : containsBlock c (env.blockRootOf b.message) = true
                · simp [h0, h1, h2, h3, h4, hcs, h5, h6, MAXIMUM_BLOCK_SLOT_NUMBER] at h
                  obtain ⟨ha, hb2⟩ := h
                  subst ha
                  exact ⟨hc, hs⟩
                · have hnotin : containsBlock c (env.blockRootOf b.message) = false := by
                    simpa using h6
                  cases hsb : storeGetBlock c b.message.parentRoot with
                  | none =>
                    simp [h0, h1, h2, h3, h4, hcs, h5, h6, hsb,
                      MAXIMUM_BLOCK_SLOT_NUMBER] at h
                    obtain ⟨ha, hb2⟩ := h
                    subst ha
                    exact ⟨hc, hs⟩
                  | some pb =>
                    cases hps : storeGetState c pb.message.stateRoot with
                    | none =>
                      simp [h0, h1, h2, h3, h4, hcs, h5, h6, hsb, hps,
                        MAXIMUM_BLOCK_SLOT_NUMBER] at h
                      obtain ⟨ha, hb2⟩ := h
                      subst ha
                      exact ⟨hc, hs⟩
                    | some parentState =>
                      cases hcu : catchupLoop env pb.message.stateRoot
                          (b.message.slot - parentState.slot) true parentState [] with
                      | error e =>
                        simp [h0, h1, h2, h3, h4, hcs, h5, h6, hsb, hps, hcu,
                          MAXIMUM_BLOCK_SLOT_NUMBER] at h
                        obtain ⟨ha, hb2⟩ := h
                        subst ha
                        exact ⟨hc, hs⟩
                      | ok pr =>
                        obtain ⟨st0, inter⟩ := pr
                        have hinterTH : ∀ p ∈ inter, p.1 = env.treeHash p.2 :=
                          catchupLoop_batch_th env pb.message.stateRoot
                            (b.message.slot - parentState.slot) true parentState []
                            st0 inter hcu (by simp)
                        by_cases hbp : env.buildCommittees st0 RelativeEpoch.Previous = true
                        · by_cases hbc : env.buildCommittees st0 RelativeEpoch.Current = true
                          · cases hpbp : env.perBlockProcessing st0 b
                                (some (env.blockRootOf b.message))
                                BlockSignatureStrategy.VerifyBulk with
                            | error er =>
                              cases er with
                              | beaconStateError e =>
                                simp [h0, h1, h2, h3, h4, hcs, h5, h6, hsb, hps, hcu,
                                  hbp, hbc, hpbp, MAXIMUM_BLOCK_SLOT_NUMBER] at h
                                obtain ⟨ha, hb2⟩ := h
                                subst ha
                                exact ⟨hc, hs⟩
                              | other e =>
                                simp [h0, h1, h2, h3, h4, hcs, h5, h6, hsb, hps, hcu,
                                  hbp, hbc, hpbp, MAXIMUM_BLOCK_SLOT_NUMBER] at h
                                obtain ⟨ha, hb2⟩ := h
                                subst ha
                                exact ⟨hc, hs⟩
                            | ok post =>
                              have hbuild : env.buildCommittees post RelativeEpoch.Current = true := by
                                rw [hpb st0 b (some (env.blockRootOf b.message))
                                  BlockSignatureStrategy.VerifyBulk post hpbp]
                                exact hbc
                              by_cases hsr : b.message.stateRoot = env.treeHash post
                              · by_cases h7 : epochOfSlot env post.slot + 1 ≥ epochOfSlot env ps
                                all_goals by_cases h8 : epochOfSlot env pb.message.slot = epochOfSlot env post.slot
                                all_goals simp [h0, h1, h2, h3, h4, hcs, h5, h6, hsb, hps, hcu,
                                  hbp, hbc, hpbp, hsr, h7, h8, MAXIMUM_BLOCK_SLOT_NUMBER] at h
                                all_goals first
                                  | (obtain ⟨ha, hb2⟩ := h
                                     subst ha
                                     constructor
                                     · refine cacheCoherent_after_import env c hinj hc hs
                                         (env.blockRootOf b.message) b.message.slot post
                                         inter hinterTH hnotin _ rfl rfl hbuild ?_
                                       intro p hp
                                       exact Or.inl hp
                                     · exact storeTHB_after_import env c hs post inter
                                         hinterTH _ rfl)
                                  | (by_cases h9 : post.slot = epochStartSlot env (epochOfSlot env post.slot)
                                     · rw [if_pos h9] at h
                                       simp at h
                                       obtain ⟨ha, hb2⟩ := h
                                       subst ha
                                       constructor
                                       · refine cacheCoherent_after_import env c hinj hc hs
                                           (env.blockRootOf b.message) b.message.slot post
                                           inter hinterTH hnotin _ rfl rfl hbuild ?_
                                         intro p hp
                                         simp only [List.mem_cons] at hp
                                         rcases hp with hp | hp
                                         · subst hp
                                           exact Or.inr (Or.inl ⟨rfl, rfl, rfl⟩)
                                         · exact Or.inl hp
                                       · exact storeTHB_after_import env c hs post inter
                                           hinterTH _ rfl
                                     · rw [if_neg h9] at h
                                       cases hgr : getBlockRoot post (epochStartSlot env (epochOfSlot env post.slot)) with
                                       | none =>
                                         rw [hgr] at h
                                         simp at h
                                         obtain ⟨ha, hb2⟩ := h
                                         subst ha
                                         refine ⟨cacheCoherentB_congr env c _ hc rfl rfl rfl, ?_⟩
                                         exact hs
                                       | some tr =>
                                         rw [hgr] at h
                                         simp at h
                                         obtain ⟨ha, hb2⟩ := h
                                         subst ha
                                         constructor
                                         · refine cacheCoherent_after_import env c hinj hc hs
                                             (env.blockRootOf b.message) b.message.slot post
                                             inter hinterTH hnotin _ rfl rfl hbuild ?_
                                           intro p hp
                                           simp only [List.mem_cons] at hp
                                           rcases hp with hp | hp
                                           · by_cases hr : tr = env.blockRootOf b.message
                                             · subst hp
                                               exact Or.inr (Or.inl ⟨rfl, hr, rfl⟩)
                                             · by_cases hmem : p ∈ c.shufflingCache
                                               · exact Or.inl hmem
                                               · refine Or.inr (Or.inr ⟨hmem, ?_, ?_⟩)
                                                 · subst hp
                                                   exact hr
                                                 · obtain ⟨pe, pr2, pc⟩ := p
                                                   refine hhist pe pr2 pc ?_ hmem ?_
                                                   · simp only [List.mem_cons]
                                                     exact Or.inl hp
                                                   · cases hp
                                                     exact hr
                                           · exact Or.inl hp
                                         · exact storeTHB_after_import env c hs post inter
                                             hinterTH _ rfl)
                              · simp [h0, h1, h2, h3, h4, hcs, h5, h6, hsb, hps, hcu,
                                  hbp, hbc, hpbp, hsr, MAXIMUM_BLOCK_SLOT_NUMBER] at h
                                obtain ⟨ha, hb2⟩ := h
                                subst ha
                                exact ⟨hc, hs⟩
                          · simp [h0, h1, h2, h3, h4, hcs, h5, h6, hsb, hps, hcu,
                              hbp, hbc, MAXIMUM_BLOCK_SLOT_NUMBER] at h
                            obtain ⟨ha, hb2⟩ := h
                            subst ha
                            exact ⟨hc, hs⟩
                        · simp [h0, h1, h2, h3, h4, hcs, h5, h6, hsb, hps, hcu,
                            hbp, MAXIMUM_BLOCK_SLOT_NUMBER] at h
                          obtain ⟨ha, hb2⟩ := h
                          subst ha
                          exact ⟨hc, hs⟩
        · simp [h0, h1, h2, h3, MAXIMUM_BLOCK_SLOT_NUMBER] at h
          obtain ⟨ha, hb2⟩ := h
          subst ha
          exact ⟨hc, hs⟩

theorem pair_inj {a b c d : Nat} (h : Nat.pair a b = Nat.pair c d) :
    a = c ∧ b = d := by
  have h2 := congrArg Nat.unpair h
  simp only [Nat.unpair_pair, Prod.mk.injEq] at h2
  exact h2

/-- An injective code of a root list, for building environments whose tree
hash is injective. -/
def listCodeP : List (Nat × Nat) → Nat
  | [] => 0
  | p :: xs => Nat.pair (Nat.pair p.1 p.2) (listCodeP xs) + 1

theorem listCodeP_inj : ∀ xs ys : List (Nat × Nat),
    listCodeP xs = listCodeP ys → xs = ys := by
  intro xs
  induction xs with
  | nil =>
    intro ys h
    cases ys with
    | nil => rfl
    | cons y ys => simp [listCodeP] at h
  | cons x xs ih =>
    intro ys h
    cases ys with
    | nil => simp [listCodeP] at h
    | cons y ys =>
      simp only [listCodeP] at h
      have h0 : Nat.pair (Nat.pair x.1 x.2) (listCodeP xs) =
          Nat.pair (Nat.pair y.1 y.2) (listCodeP ys) := by omega
      obtain ⟨h1, h2⟩ := pair_inj h0
      obtain ⟨h3, h4⟩ := pair_inj h1
      obtain ⟨x1, x2⟩ := x
      obtain ⟨y1, y2⟩ := y
      simp only at h3 h4
      subst h3
      subst h4
      rw [ih ys h2]

/-- An injective code of a checkpoint. -/
def cpCode (cp : Checkpoint) : Nat := Nat.pair cp.epoch cp.root

theorem cpCode_inj : ∀ x y : Checkpoint, cpCode x = cpCode y → x = y := by
  intro x y h
  obtain ⟨e1, r1⟩ := x
  obtain ⟨e2, r2⟩ := y
  simp only [cpCode] at h
  obtain ⟨h1, h2⟩ := pair_inj h
  subst h1
  subst h2
  rfl

/-- An injective code of a whole beacon state: a concrete tree hash for
environments where distinct states must have distinct roots. -/
def stateCode (s : BeaconState) : Nat :=
  Nat.pair s.slot (Nat.pair (cpCode s.finalizedCheckpoint)
    (Nat.pair (cpCode s.currentJustifiedCheckpoint)
      (Nat.pair s.fork (Nat.pair s.numValidators
        (Nat.pair s.latestBlockHeaderRoot
          (Nat.pair (listCodeP s.blockRoots) (listCodeP s.stateRoots)))))))

theorem stateCode_inj : ∀ s t : BeaconState, stateCode s = stateCode t → s = t := by
  intro s t h
  obtain ⟨a1, a2, a3, a4, a5, a6, a7, a8⟩ := s
  obtain ⟨b1, b2, b3, b4, b5, b6, b7, b8⟩ := t
  simp only [stateCode] at h
  obtain ⟨h1, h⟩ := pair_inj h
  obtain ⟨h2, h⟩ := pair_inj h
  obtain ⟨h3, h⟩ := pair_inj h
  obtain ⟨h4, h⟩ := pair_inj h
  obtain ⟨h5, h⟩ := pair_inj h
  obtain ⟨h6, h⟩ := pair_inj h
  obtain ⟨h7, h8⟩ := pair_inj h
  have e2 := cpCode_inj _ _ h2
  have e3 := cpCode_inj _ _ h3
  have e7 := listCodeP_inj _ _ h7
  have e8 := listCodeP_inj _ _ h8
  subst h1
  subst e2
  subst e3
  subst h4
  subst h5
  subst h6
  subst e7
  subst e8
  rfl

theorem cacheCoherentB_unfold (env : Env) (c : ChainState)
    (h : cacheCoherentB env c = true) :
    ∀ e r cc, (e, r, cc) ∈ c.shufflingCache →
      fromScratchCache env c e r = some cc := by
  intro e r cc hm
  have h2 := List.all_eq_true.mp h _ hm
  simpa using h2

/-- Claim C6: every `(epoch, target_root)` pair in the shuffling cache stores
the committee cache that a from-scratch build on the corresponding state
would produce (resolving the root through fork choice, loading the state at
the target block's state root, skip-processing with zero state roots up to
the epoch, and building the relative-epoch committee cache), so a cache-miss
path computes the same committee cache a cache-hit path would have
returned.  The invariant holds of every cache entry; it is preserved by
attestation ingress (whose cache-miss path inserts exactly the from-scratch
result); and it is preserved by block ingress — including the
first-block-of-epoch insertion — provided the tree hash is injective,
`per_block_processing` does not disturb the current-epoch committee builder
(state-transition code outside this crate), and inserted entries keyed by a
historical root other than the new block's root are from-scratch
(shuffling determinism of the historical-root path, also decided outside
this crate). -/
theorem C6_shuffling_cache_coherent (env : Env) (c : ChainState)
    (hc : cacheCoherentB env c = true) :
    (∀ e r cc, (e, r, cc) ∈ c.shufflingCache →
        fromScratchCache env c e r = some cc)
    ∧ (∀ a e r cc,
        (e, r, cc) ∈ (process_attestation_internal env c a).1.shufflingCache →
        fromScratchCache env (process_attestation_internal env c a).1 e r =
          some cc)
    ∧ (∀ b c' out,
        (∀ s t, env.treeHash s = env.treeHash t → s = t) →
        (∀ s bb r strat s2, env.perBlockProcessing s bb r strat = Except.ok s2 →
          env.buildCommittees s2 RelativeEpoch.Current =
            env.buildCommittees s RelativeEpoch.Current) →
        storeTHB env c = true →
        process_block_internal env c b = (c', out) →
        (∀ e r cc, (e, r, cc) ∈ c'.shufflingCache →
          (e, r, cc) ∉ c.shufflingCache → r ≠ env.blockRootOf b.message →
          fromScratchCache env c' e r = some cc) →
        ∀ e r cc, (e, r, cc) ∈ c'.shufflingCache →
          fromScratchCache env c' e r = some cc) := by
  refine ⟨cacheCoherentB_unfold env c hc, ?_, ?_⟩
  · intro a
    exact cacheCoherentB_unfold env _ (attestation_preserves_coherence env c a hc)
  · intro b c' out hinj hpb hs hrun hhist
    exact cacheCoherentB_unfold env c'
      ((block_preserves_coherence env c b hinj hpb hc hs c' out hrun hhist).1)

def stC6 : BeaconState := mkState0 4 0

/-- The base environment with the injective tree hash. -/
def envC6 : Env :=
  { baseEnv with treeHash := stateCode }

def chainC6 : ChainState :=
  { mkChain (mkHead (mkSigned (mkBlock 0 0 0)) 0 (mkState0 0 0) 0) with
    forkChoice := [(3001, 4, stateCode stC6)],
    storeStates := [(stateCode stC6, stC6)],
    shufflingCache := [(0, 3001, 4)] }

def attC6 : Attestation := mkAtt [false] (mkAttData 0 0 0 0 0 0 0)

def bC6 : SignedBeaconBlock := mkSigned (mkBlock 0 0 0)

set_option maxHeartbeats 2000000 in
/-- Witness for C6: a chain holding one coherent shuffling-cache entry under
an injective tree hash, with an attestation and a block exercising all three
parts (the block is classified `GenesisBlock`, leaving the chain unchanged). -/
theorem C6_shuffling_cache_coherent_witness :
    cacheCoherentB envC6 chainC6 = true ∧
      fromScratchCache envC6 chainC6 0 3001 = some 4 ∧
      fromScratchCache envC6
          (process_attestation_internal envC6 chainC6 attC6).1 0 3001 = some 4 ∧
      fromScratchCache envC6 chainC6 0 3001 = some 4 := by
  have H := C6_shuffling_cache_coherent envC6 chainC6 (by decide)
  refine ⟨by decide, H.1 0 3001 4 (by decide), H.2.1 attC6 0 3001 4 (by decide), ?_⟩
  exact H.2.2 bC6 chainC6 (Except.ok BlockProcessingOutcome.GenesisBlock)
    (fun s t hst => stateCode_inj s t hst)
    (fun s bb r strat s2 hok => rfl)
    (by decide) (by decide)
    (fun e r cc h1 h2 hne => absurd h1 h2)
    0 3001 4 (by decide)
